import Mathlib

/-!
Verification of the go-openbmclapi request-handling core.

This file gives a shallow embedding, in Lean 4, of the code under scrutiny:

* `src/handler.go` — the `/download/` branch of `Cluster.ServeHTTP`, the
  download dispatcher `handleDownload`, `parseRangeFirstStart`, the
  record middleware gate and the host-redirect middleware;
* `src/unnamed/part_002` — `checkQuerySign`, `forEachFromRandomIndex`,
  `forEachFromRandomIndexWithPossibility`.

Go strings are modelled by Lean `String`; Go byte slices by `List Nat`
with every element `< 256`; machine integers by `Nat`/`Int` with explicit
`% 2^w` where overflow matters.  Side effects (HTTP response writes,
counter increments, access-log extras, callback invocations) are made
explicit as record fields or threaded state, so every definition is
executable.
-/

/-! ### Go string primitives

Models of the Go standard-library string helpers used by the source:
`strings.Cut`, `strings.CutPrefix`, slicing `s[n:]`, `strings.ToLower`
(ASCII fragment — the repo only lowercases hostnames),
`net/textproto.TrimString`. -/

/-- Go slicing `s[n:]` (byte indexing; modelled on characters, which agrees
on the ASCII strings the handler slices). -/
def stringDrop (s : String) (n : Nat) : String := String.mk (s.data.drop n)

/-- Go `strings.CutPrefix(s, p)`: `(rest, true)` when `p` is a prefix of
`s`, otherwise `(s, false)`. -/
def cutPfx (s p : String) : String × Bool :=
  if p.data.isPrefixOf s.data then (stringDrop s p.length, true) else (s, false)

/-- Go `strings.Cut(s, sep)` for a one-character separator (the source only
cuts at `","`, `"-"`, `" "`, `"/"`): `(before, after, found)`. -/
def goCutChar (s : String) (c : Char) : String × String × Bool :=
  match s.data.findIdx? (· = c) with
  | some i => (String.mk (s.data.take i), String.mk (s.data.drop (i + 1)), true)
  | none => (s, "", false)

/-- `net/textproto.TrimString`'s notion of ASCII space. -/
def isAsciiSpaceGo (c : Char) : Bool :=
  c = ' ' || c = '\t' || c = '\n' || c = '\r'

/-- Go `net/textproto.TrimString`: strip leading and trailing ASCII space. -/
def trimAsciiSpace (s : String) : String :=
  String.mk (((s.data.dropWhile isAsciiSpaceGo).reverse.dropWhile isAsciiSpaceGo).reverse)

/-- Go `strings.ToLower` restricted to ASCII. -/
def toLowerAscii (s : String) : String :=
  String.mk (s.data.map fun c =>
    if 'A' ≤ c ∧ c ≤ 'Z' then Char.ofNat (c.toNat + 32) else c)

/-- Go `fmt.Sprintf("%q", s)` on the printable-ASCII fragment: double
quotes around `s` with `"` and `\` backslash-escaped. -/
def goQuote (s : String) : String :=
  "\"" ++ String.mk (s.data.foldr (fun c acc =>
    (if c = '"' ∨ c = '\\' then ['\\', c] else [c]) ++ acc) []) ++ "\""

/-! ### Go integer parsing and formatting

`strconv.ParseInt(s, base, 64)` for bases 36 (`checkQuerySign`) and 10
(`parseRangeFirstStart`), and `strconv.FormatInt(v, 36)` for the
spec-side signing model.  `ParseInt` accepts an optional `+`/`-` sign,
requires at least one digit, accepts both letter cases as digits, and
fails outside `[-2^63, 2^63)`.  The Go implementation reports overflow
(including overflow past `uint64` inside `ParseUint`) with a non-nil
error; both callers only distinguish nil from non-nil, so the model
returns `none` exactly when Go returns a non-nil error. -/

/-- Value of one digit character under base 36 (Go `strconv` digit rules:
`0`-`9`, `a`-`z`, `A`-`Z`). -/
def digitVal36 (c : Char) : Option Nat :=
  if '0' ≤ c ∧ c ≤ '9' then some (c.toNat - 48)
  else if 'a' ≤ c ∧ c ≤ 'z' then some (c.toNat - 87)
  else if 'A' ≤ c ∧ c ≤ 'Z' then some (c.toNat - 55)
  else none

/-- Value of one digit character under base 10 (digits above 9 are
rejected by Go's `d >= byte(base)` check). -/
def digitVal10 (c : Char) : Option Nat :=
  if '0' ≤ c ∧ c ≤ '9' then some (c.toNat - 48) else none

/-- Accumulate digit values left to right in the given base; `none` on any
invalid digit. -/
def parseDigits (base : Nat) (dv : Char → Option Nat) (l : List Char) : Option Nat :=
  l.foldlM (fun acc c => (dv c).map fun d => acc * base + d) 0

/-- Go `strconv.ParseInt(s, base, 64)` skeleton shared by the two bases the
source uses. -/
def parseIntGo (base : Nat) (dv : Char → Option Nat) (s : String) : Option Int :=
  if s.data.isEmpty then none
  else
    let c0 := s.data.headD ' '
    let neg := c0 = '-'
    let ds := if c0 = '+' ∨ c0 = '-' then s.data.tail else s.data
    if ds.isEmpty then none
    else match parseDigits base dv ds with
      | none => none
      | some v =>
        if neg then (if v ≤ 2 ^ 63 then some (-(v : Int)) else none)
        else (if v < 2 ^ 63 then some (v : Int) else none)

/-- Go `strconv.ParseInt(s, 36, 64)`, as used by `checkQuerySign`. -/
def parseInt36 (s : String) : Option Int := parseIntGo 36 digitVal36 s

/-- Go `strconv.ParseInt(s, 10, 64)`, as used by `parseRangeFirstStart`. -/
def parseInt10 (s : String) : Option Int := parseIntGo 10 digitVal10 s

/-- Digit character for base 36 (Go `strconv.FormatInt` lower-case digits). -/
def digit36 (n : Nat) : Char :=
  if n < 10 then Char.ofNat (48 + n) else Char.ofNat (87 + n)

/-- Base-36 representation of a natural number, most significant digit
first (Go `strconv.FormatInt(n, 36)` for non-negative `n`). -/
def natToBase36 (n : Nat) : List Char :=
  if h : n < 36 then [digit36 n]
  else natToBase36 (n / 36) ++ [digit36 (n % 36)]
decreasing_by exact Nat.div_lt_self (by omega) (by norm_num)

/-- Base-36 expiry string produced by the authority's signer. -/
def e36 (n : Nat) : String := String.mk (natToBase36 n)

theorem digit36_val : ∀ d, d < 36 → digitVal36 (digit36 d) = some d := by decide

theorem digit36_not_sign : ∀ d, d < 36 → digit36 d ≠ '+' ∧ digit36 d ≠ '-' := by decide

theorem natToBase36_ne_nil (n : Nat) : natToBase36 n ≠ [] := by
  unfold natToBase36
  split <;> simp

theorem natToBase36_all_digits (n : Nat) :
    ∀ c ∈ natToBase36 n, ∃ d, d < 36 ∧ c = digit36 d := by
  induction n using Nat.strong_induction_on with
  | _ n ih =>
    unfold natToBase36
    split
    next h =>
      intro c hc
      simp only [List.mem_singleton] at hc
      exact ⟨n, h, hc⟩
    next h =>
      intro c hc
      rcases List.mem_append.mp hc with h1 | h1
      · exact ih (n / 36) (Nat.div_lt_self (by omega) (by norm_num)) c h1
      · simp only [List.mem_singleton] at h1
        exact ⟨n % 36, Nat.mod_lt _ (by norm_num), h1⟩

theorem parseDigits_append (base : Nat) (dv : Char → Option Nat) (l1 l2 : List Char) :
    parseDigits base dv (l1 ++ l2) =
      match parseDigits base dv l1 with
      | none => none
      | some v => l2.foldlM (fun acc c => (dv c).map fun d => acc * base + d) v := by
  unfold parseDigits
  rw [List.foldlM_append]
  cases List.foldlM (fun acc c => (dv c).map fun d => acc * base + d) 0 l1 <;> rfl

theorem parseDigits_natToBase36 (n : Nat) :
    parseDigits 36 digitVal36 (natToBase36 n) = some n := by
  induction n using Nat.strong_induction_on with
  | _ n ih =>
    unfold natToBase36
    split
    next h =>
      simp [parseDigits, digit36_val n h]
    next h =>
      rw [parseDigits_append, ih (n / 36) (Nat.div_lt_self (by omega) (by norm_num))]
      simp only [List.foldlM_cons, List.foldlM_nil, digit36_val (n % 36) (Nat.mod_lt _ (by norm_num)),
        Option.map_some', Option.some_bind, Option.pure_def]
      simp
      omega

/-- Round trip: `ParseInt(FormatInt(n, 36), 36, 64)` recovers `n` for
`n < 2^63`. -/
theorem parseInt36_e36 (n : Nat) (h : n < 2 ^ 63) :
    parseInt36 (e36 n) = some (n : Int) := by
  unfold parseInt36 parseIntGo e36
  have hne := natToBase36_ne_nil n
  have hall := natToBase36_all_digits n
  have hval := parseDigits_natToBase36 n
  rcases hd : natToBase36 n with _ | ⟨c, rest⟩
  · exact absurd hd hne
  · obtain ⟨d, hdlt, hcd⟩ := hall c (by rw [hd]; exact List.mem_cons_self c rest)
    obtain ⟨hp, hm⟩ := digit36_not_sign d hdlt
    rw [hd] at hval
    subst hcd
    simp only [String.data]
    simp [hp, hm, hval]
    omega


/-! ### Hashes

Executable models of `crypto/sha1` and `crypto/md5`, used by
`checkQuerySign` (SHA-1 of `secret ∥ hash ∥ e`) and by the `emptyHashes`
initializer in `src/handler.go` (hex digests of the empty input under
MD5 and SHA-1).  Bytes are `Nat`s `< 256`; words are `Nat`s reduced
modulo `2^32` by `w32`. -/

/-- Truncate to a 32-bit word. -/
def w32 (n : Nat) : Nat := n % 4294967296

/-- Rotate a 32-bit word left by `k`. -/
def rotl (k x : Nat) : Nat := w32 ((x <<< k) ||| (x >>> (32 - k)))

/-- Big-endian word from four bytes. -/
def beWord : List Nat → Nat
  | [a, b, c, d] => a * 16777216 + b * 65536 + c * 256 + d
  | _ => 0

/-- Little-endian word from four bytes. -/
def leWord : List Nat → Nat
  | [a, b, c, d] => a + b * 256 + c * 65536 + d * 16777216
  | _ => 0

/-- Big-endian bytes of a 32-bit word. -/
def beBytes4 (w : Nat) : List Nat :=
  [w / 16777216 % 256, w / 65536 % 256, w / 256 % 256, w % 256]

/-- Little-endian bytes of a 32-bit word. -/
def leBytes4 (w : Nat) : List Nat :=
  [w % 256, w / 256 % 256, w / 65536 % 256, w / 16777216 % 256]

/-- Big-endian bytes of a 64-bit length field. -/
def beBytes8 (n : Nat) : List Nat :=
  [n / 72057594037927936 % 256, n / 281474976710656 % 256,
   n / 1099511627776 % 256, n / 4294967296 % 256,
   n / 16777216 % 256, n / 65536 % 256, n / 256 % 256, n % 256]

/-- Little-endian bytes of a 64-bit length field. -/
def leBytes8 (n : Nat) : List Nat :=
  [n % 256, n / 256 % 256, n / 65536 % 256, n / 16777216 % 256,
   n / 4294967296 % 256, n / 1099511627776 % 256,
   n / 281474976710656 % 256, n / 72057594037927936 % 256]

/-- Merkle–Damgård padding shared by MD5 and SHA-1: `0x80`, zeros to 56
mod 64, then the 8-byte bit length (`lenBytes` fixes the endianness). -/
def mdPad (lenBytes : Nat → List Nat) (msg : List Nat) : List Nat :=
  msg ++ 128 :: List.replicate ((119 - msg.length % 64) % 64) 0 ++ lenBytes (8 * msg.length)

/-- Split a byte list into 64-byte chunks (structural recursion on a fuel
bounded by the length: `drop 64` strictly shrinks a non-empty list, so
`l.length` steps always suffice). -/
def chunks64Go : Nat → List Nat → List (List Nat)
  | _, [] => []
  | 0, _ :: _ => []
  | fuel + 1, a :: l => ((a :: l).take 64) :: chunks64Go fuel ((a :: l).drop 64)

/-- Split a byte list into 64-byte chunks. -/
def chunks64 (l : List Nat) : List (List Nat) := chunks64Go l.length l

/-- The sixteen message words of one chunk. -/
def chunkWords (word : List Nat → Nat) (chunk : List Nat) : Array Nat :=
  (List.range 16).foldl (fun arr i => arr.push (word ((chunk.drop (4 * i)).take 4))) #[]

/-- SHA-1 round function. -/
def sha1F (t b c d : Nat) : Nat :=
  if t < 20 then (b &&& c) ||| ((b ^^^ 4294967295) &&& d)
  else if t < 40 then b ^^^ c ^^^ d
  else if t < 60 then (b &&& c) ||| (b &&& d) ||| (c &&& d)
  else b ^^^ c ^^^ d

/-- SHA-1 round constants. -/
def sha1K (t : Nat) : Nat :=
  if t < 20 then 0x5A827999
  else if t < 40 then 0x6ED9EBA1
  else if t < 60 then 0x8F1BBCDC
  else 0xCA62C1D6

/-- Extend sixteen message words to eighty. -/
def sha1Extend (ws : Array Nat) : Array Nat :=
  (List.range 64).foldl (fun ws i =>
    let t := i + 16
    ws.push (rotl 1 ((ws.getD (t - 3) 0) ^^^ (ws.getD (t - 8) 0) ^^^
      (ws.getD (t - 14) 0) ^^^ (ws.getD (t - 16) 0)))) ws

/-- One SHA-1 compression round. -/
def sha1Round (w : Array Nat) (st : Nat × Nat × Nat × Nat × Nat) (t : Nat) :
    Nat × Nat × Nat × Nat × Nat :=
  let (a, b, c, d, e) := st
  (w32 (rotl 5 a + sha1F t b c d + e + sha1K t + w.getD t 0), a, rotl 30 b, c, d)

/-- Process one 64-byte chunk of SHA-1 state. -/
def sha1Chunk (h : Nat × Nat × Nat × Nat × Nat) (chunk : List Nat) :
    Nat × Nat × Nat × Nat × Nat :=
  let w := sha1Extend (chunkWords beWord chunk)
  let (a, b, c, d, e) := (List.range 80).foldl (sha1Round w) h
  (w32 (h.1 + a), w32 (h.2.1 + b), w32 (h.2.2.1 + c), w32 (h.2.2.2.1 + d), w32 (h.2.2.2.2 + e))

/-- Assemble the 20-byte SHA-1 digest from the final state. -/
def sha1Digest (h : Nat × Nat × Nat × Nat × Nat) : List Nat :=
  beBytes4 h.1 ++ beBytes4 h.2.1 ++ beBytes4 h.2.2.1 ++ beBytes4 h.2.2.2.1 ++ beBytes4 h.2.2.2.2

/-- SHA-1 of a byte list (`crypto/sha1`). -/
def sha1 (msg : List Nat) : List Nat :=
  sha1Digest ((chunks64 (mdPad beBytes8 msg)).foldl sha1Chunk
    (0x67452301, 0xEFCDAB89, 0x98BADCFE, 0x10325476, 0xC3D2E1F0))

/-- MD5 per-round shift amounts. -/
def md5S (i : Nat) : Nat :=
  ([7, 12, 17, 22, 5, 9, 14, 20, 4, 11, 16, 23, 6, 10, 15, 21].getD
    ((i / 16) * 4 + i % 4) 0)

/-- MD5 round constants `floor(2^32 * abs(sin(i+1)))`. -/
def md5K (i : Nat) : Nat :=
  ([0xD76AA478, 0xE8C7B756, 0x242070DB, 0xC1BDCEEE, 0xF57C0FAF, 0x4787C62A, 0xA8304613, 0xFD469501,
    0x698098D8, 0x8B44F7AF, 0xFFFF5BB1, 0x895CD7BE, 0x6B901122, 0xFD987193, 0xA679438E, 0x49B40821,
    0xF61E2562, 0xC040B340, 0x265E5A51, 0xE9B6C7AA, 0xD62F105D, 0x02441453, 0xD8A1E681, 0xE7D3FBC8,
    0x21E1CDE6, 0xC33707D6, 0xF4D50D87, 0x455A14ED, 0xA9E3E905, 0xFCEFA3F8, 0x676F02D9, 0x8D2A4C8A,
    0xFFFA3942, 0x8771F681, 0x6D9D6122, 0xFDE5380C, 0xA4BEEA44, 0x4BDECFA9, 0xF6BB4B60, 0xBEBFBC70,
    0x289B7EC6, 0xEAA127FA, 0xD4EF3085, 0x04881D05, 0xD9D4D039, 0xE6DB99E5, 0x1FA27CF8, 0xC4AC5665,
    0xF4292244, 0x432AFF97, 0xAB9423A7, 0xFC93A039, 0x655B59C3, 0x8F0CCC92, 0xFFEFF47D, 0x85845DD1,
    0x6FA87E4F, 0xFE2CE6E0, 0xA3014314, 0x4E0811A1, 0xF7537E82, 0xBD3AF235, 0x2AD7D2BB, 0xEB86D391].getD i 0)

/-- MD5 round mixing function. -/
def md5F (i b c d : Nat) : Nat :=
  if i < 16 then (b &&& c) ||| ((b ^^^ 4294967295) &&& d)
  else if i < 32 then (d &&& b) ||| ((d ^^^ 4294967295) &&& c)
  else if i < 48 then b ^^^ c ^^^ d
  else c ^^^ (b ||| (d ^^^ 4294967295))

/-- MD5 message-word index per round. -/
def md5G (i : Nat) : Nat :=
  if i < 16 then i
  else if i < 32 then (5 * i + 1) % 16
  else if i < 48 then (3 * i + 5) % 16
  else (7 * i) % 16

/-- One MD5 compression round. -/
def md5Round (w : Array Nat) (st : Nat × Nat × Nat × Nat) (i : Nat) :
    Nat × Nat × Nat × Nat :=
  let (a, b, c, d) := st
  let f := w32 (md5F i b c d + a + md5K i + w.getD (md5G i) 0)
  (d, w32 (b + rotl (md5S i) f), b, c)

/-- Process one 64-byte chunk of MD5 state. -/
def md5Chunk (h : Nat × Nat × Nat × Nat) (chunk : List Nat) : Nat × Nat × Nat × Nat :=
  let w := chunkWords leWord chunk
  let (a, b, c, d) := (List.range 64).foldl (md5Round w) h
  (w32 (h.1 + a), w32 (h.2.1 + b), w32 (h.2.2.1 + c), w32 (h.2.2.2 + d))

/-- MD5 of a byte list (`crypto/md5`). -/
def md5 (msg : List Nat) : List Nat :=
  let f := (chunks64 (mdPad leBytes8 msg)).foldl md5Chunk
    (0x67452301, 0xEFCDAB89, 0x98BADCFE, 0x10325476)
  leBytes4 f.1 ++ leBytes4 f.2.1 ++ leBytes4 f.2.2.1 ++ leBytes4 f.2.2.2

/-- Lower-case hex digit. -/
def hexChar (n : Nat) : Char := "0123456789abcdef".data.getD n '0'

/-- `encoding/hex.EncodeToString`. -/
def hexOf (bytes : List Nat) : String :=
  String.mk (bytes.foldr (fun b acc => hexChar (b / 16) :: hexChar (b % 16) :: acc) [])

/-! ### Base64url (unpadded)

`encoding/base64.RawURLEncoding.Encode`, as used on the 20-byte SHA-1
digest in `checkQuerySign` (27 output characters).  The bit operations
of the Go encoder are written with `/`, `%` and `*` on byte values
`< 256`, where they coincide. -/

/-- The base64url alphabet. -/
def b64Char (n : Nat) : Char :=
  "ABCDEFGHIJKLMNOPQRSTUVWXYZabcdefghijklmnopqrstuvwxyz0123456789-_".data.getD n 'A'

/-- Unpadded base64url of a byte list. -/
def base64url : List Nat → List Char
  | a :: b :: c :: rest =>
    let n := a * 65536 + b * 256 + c
    b64Char (n / 262144) :: b64Char (n / 4096 % 64) :: b64Char (n / 64 % 64) ::
      b64Char (n % 64) :: base64url rest
  | [a, b] =>
    let n := a * 1024 + b * 4
    [b64Char (n / 4096), b64Char (n / 64 % 64), b64Char (n % 64)]
  | [a] => [b64Char (a / 4), b64Char (a % 4 * 16)]
  | [] => []

/-- UTF-8 bytes of one scalar value (Go strings hold UTF-8). -/
def utf8Bytes (n : Nat) : List Nat :=
  if n < 128 then [n]
  else if n < 2048 then [192 + n / 64, 128 + n % 64]
  else if n < 65536 then [224 + n / 4096, 128 + n / 64 % 64, 128 + n % 64]
  else [240 + n / 262144, 128 + n / 4096 % 64, 128 + n / 64 % 64, 128 + n % 64]

/-- The byte sequence of a Go string. -/
def strBytes (s : String) : List Nat :=
  s.data.foldr (fun c acc => utf8Bytes c.toNat ++ acc) []


theorem sha1_length (msg : List Nat) : (sha1 msg).length = 20 := by
  unfold sha1 sha1Digest
  simp [beBytes4]

theorem beBytes4_lt (w : Nat) : ∀ b ∈ beBytes4 w, b < 256 := by
  intro b hb
  simp only [beBytes4, List.mem_cons, List.not_mem_nil, or_false] at hb
  rcases hb with h | h | h | h <;> subst h <;> exact Nat.mod_lt _ (by norm_num)

theorem sha1_lt (msg : List Nat) : ∀ b ∈ sha1 msg, b < 256 := by
  unfold sha1 sha1Digest
  intro b hb
  simp only [List.mem_append] at hb
  rcases hb with ((((h | h) | h) | h) | h) <;> exact beBytes4_lt _ b h

theorem b64Char_injOn : ∀ a, a < 64 → ∀ b, b < 64 → b64Char a = b64Char b → a = b := by decide

/-- `base64url` is injective on equal-length byte lists. -/
theorem base64url_inj (n : Nat) : ∀ l1 l2 : List Nat, l1.length ≤ n →
    (∀ x ∈ l1, x < 256) → (∀ x ∈ l2, x < 256) → l1.length = l2.length →
    base64url l1 = base64url l2 → l1 = l2 := by
  induction n with
  | zero =>
    intro l1 l2 hn _ _ hlen _
    have h1 : l1 = [] := List.length_eq_zero.mp (Nat.le_zero.mp hn)
    subst h1
    exact (List.length_eq_zero.mp hlen.symm).symm
  | succ n ih =>
    intro l1 l2 hn hb1 hb2 hlen henc
    match l1, l2 with
    | [], [] => rfl
    | [], _ :: _ => simp at hlen
    | _ :: _, [] => simp at hlen
    | [a], [a'] =>
      have ha : a < 256 := hb1 a (by simp)
      have ha' : a' < 256 := hb2 a' (by simp)
      simp only [base64url, List.cons.injEq, and_true] at henc
      obtain ⟨h1, h2⟩ := henc
      have e1 := b64Char_injOn _ (by omega) _ (by omega) h1
      have e2 := b64Char_injOn _ (by omega) _ (by omega) h2
      have : a = a' := by omega
      rw [this]
    | [a], _ :: _ :: _ => simp at hlen
    | _ :: _ :: _, [a'] => simp at hlen
    | [a, b], [a', b'] =>
      have ha : a < 256 := hb1 a (by simp)
      have hb : b < 256 := hb1 b (by simp)
      have ha' : a' < 256 := hb2 a' (by simp)
      have hb' : b' < 256 := hb2 b' (by simp)
      simp only [base64url, List.cons.injEq, and_true] at henc
      obtain ⟨h1, h2, h3⟩ := henc
      have e1 := b64Char_injOn _ (by omega) _ (by omega) h1
      have e2 := b64Char_injOn _ (by omega) _ (by omega) h2
      have e3 := b64Char_injOn _ (by omega) _ (by omega) h3
      have : a = a' ∧ b = b' := by omega
      rw [this.1, this.2]
    | [a, b], _ :: _ :: _ :: _ => simp at hlen
    | _ :: _ :: _ :: _, [a', b'] => simp at hlen
    | a :: b :: c :: rest, a' :: b' :: c' :: rest' =>
      have ha : a < 256 := hb1 a (by simp)
      have hb : b < 256 := hb1 b (by simp)
      have hc : c < 256 := hb1 c (by simp)
      have ha' : a' < 256 := hb2 a' (by simp)
      have hb' : b' < 256 := hb2 b' (by simp)
      have hc' : c' < 256 := hb2 c' (by simp)
      simp only [base64url, List.cons.injEq] at henc
      obtain ⟨h1, h2, h3, h4, htail⟩ := henc
      have e1 := b64Char_injOn _ (by omega) _ (by omega) h1
      have e2 := b64Char_injOn _ (by omega) _ (by omega) h2
      have e3 := b64Char_injOn _ (by omega) _ (by omega) h3
      have e4 := b64Char_injOn _ (by omega) _ (by omega) h4
      have habc : a = a' ∧ b = b' ∧ c = c' := by omega
      have hrest : rest = rest' := by
        apply ih rest rest'
        · have := hn; simp only [List.length_cons] at this; omega
        · intro x hx; exact hb1 x (by simp [hx])
        · intro x hx; exact hb2 x (by simp [hx])
        · have := hlen; simp only [List.length_cons] at this; omega
        · exact htail
      rw [habc.1, habc.2.1, habc.2.2, hrest]

theorem base64url_sha1_ne_nil (x : List Nat) : base64url (sha1 x) ≠ [] := by
  have h20 := sha1_length x
  rcases h : sha1 x with _ | ⟨a, _ | ⟨b, _ | ⟨c, rest⟩⟩⟩ <;> rw [h] at h20 <;>
    simp only [List.length] at h20
  · omega
  · omega
  · omega
  · simp [base64url]

theorem string_len_zero_iff (s : String) : s.length = 0 ↔ s = "" := by
  cases s with
  | mk data =>
    cases data <;> simp [String.length, String.ext_iff]

theorem string_mk_injective (l1 l2 : List Char) (h : String.mk l1 = String.mk l2) : l1 = l2 := by
  have := String.ext_iff.mp h
  exact this

/-! ### The signature verifier

`checkQuerySign` from `src/unnamed/part_002`.  `query` models
`url.Values.Get` (the first value of a key, `""` when absent); `now`
models `time.Now().UnixMilli()`. -/

/-- `checkQuerySign(hash, secret, query)`: require non-empty `s` and `e`,
parse `e` as base-36 signed 64-bit, compare `s` with the unpadded
base64url of `SHA1(secret ∥ hash ∥ e)` (the three `io.WriteString` calls),
then require `now < e`. -/
def checkQuerySign (hash secret : String) (query : String → String) (now : Int) : Bool :=
  let sign := query "s"
  let e := query "e"
  if sign.length = 0 ∨ e.length = 0 then false
  else match parseInt36 e with
    | none => false
    | some before =>
      let digest := sha1 (strBytes secret ++ strBytes hash ++ strBytes e)
      if String.mk (base64url digest) ≠ sign then false
      else decide (now < before)

/-- Modelled from the spec: the authority-side `sign(hash, secret, expiry)`
is not part of this repository's sources; per §3 and §8.1 of the spec it
produces query parameters `e` = base-36 expiry (milliseconds since epoch)
and `s` = unpadded base64url of `SHA1(secret ∥ hash ∥ e)`. -/
def signQuery (hash secret : String) (expiry : Nat) : String → String := fun k =>
  if k = "s" then
    String.mk (base64url (sha1 (strBytes secret ++ strBytes hash ++ strBytes (e36 expiry))))
  else if k = "e" then e36 expiry
  else ""

theorem signQuery_s (hash secret : String) (expiry : Nat) :
    signQuery hash secret expiry "s" =
      String.mk (base64url (sha1 (strBytes secret ++ strBytes hash ++ strBytes (e36 expiry)))) := rfl

theorem signQuery_e (hash secret : String) (expiry : Nat) :
    signQuery hash secret expiry "e" = e36 expiry := rfl

theorem e36_ne_empty (n : Nat) : e36 n ≠ "" := by
  simp only [e36, ne_eq, String.ext_iff]
  exact natToBase36_ne_nil n

/-- Characterization of `checkQuerySign`: it returns `true` exactly when
`s` and `e` are non-empty, `e` parses, `s` equals the MAC over the raw `e`
string, and `now` is strictly below the parsed expiry. -/
theorem checkQuerySign_iff (hash secret : String) (q : String → String) (now : Int) :
    checkQuerySign hash secret q now = true ↔
      (q "s" ≠ "" ∧ q "e" ≠ "" ∧ ∃ v : Int, parseInt36 (q "e") = some v ∧
        q "s" = String.mk (base64url (sha1 (strBytes secret ++ strBytes hash ++ strBytes (q "e")))) ∧
        now < v) := by
  unfold checkQuerySign
  by_cases h1 : (q "s").length = 0 ∨ (q "e").length = 0
  · rw [if_pos h1]
    constructor
    · intro h
      simp at h
    · rintro ⟨hs, he, _⟩
      rcases h1 with h1 | h1
      · exact absurd ((string_len_zero_iff _).mp h1) hs
      · exact absurd ((string_len_zero_iff _).mp h1) he
  · rw [if_neg h1]
    push_neg at h1
    have hs : q "s" ≠ "" := fun h => h1.1 ((string_len_zero_iff _).mpr h)
    have he : q "e" ≠ "" := fun h => h1.2 ((string_len_zero_iff _).mpr h)
    rcases hp : parseInt36 (q "e") with _ | v
    · constructor
      · intro h
        simp at h
      · rintro ⟨_, _, v, hv, _⟩
        simp at hv
    · dsimp only
      by_cases hmac :
          String.mk (base64url (sha1 (strBytes secret ++ strBytes hash ++ strBytes (q "e")))) ≠ q "s"
      · rw [if_pos hmac]
        constructor
        · intro h
          simp at h
        · rintro ⟨_, _, v', _, hmac', _⟩
          exact (hmac hmac'.symm).elim
      · rw [if_neg hmac]
        push_neg at hmac
        simp only [decide_eq_true_eq]
        constructor
        · intro hlt
          exact ⟨hs, he, v, rfl, hmac.symm, hlt⟩
        · rintro ⟨_, _, v', hv', _, hlt⟩
          injection hv' with hv'
          rw [hv']
          exact hlt

/-- Round trip with the signer: verification succeeds exactly when `now`
is before the expiry. -/
theorem checkQuerySign_signQuery (hash secret : String) (expiry : Nat)
    (h : expiry < 2 ^ 63) (now : Int) :
    checkQuerySign hash secret (signQuery hash secret expiry) now = true ↔ now < (expiry : Int) := by
  rw [checkQuerySign_iff]
  constructor
  · rintro ⟨_, _, v, hv, _, hlt⟩
    rw [signQuery_e, parseInt36_e36 expiry h] at hv
    injection hv with hv
    rw [hv]
    exact hlt
  · intro hlt
    refine ⟨?_, ?_, (expiry : Int), ?_, ?_, hlt⟩
    · rw [signQuery_s]
      simp only [ne_eq, String.ext_iff]
      exact base64url_sha1_ne_nil _
    · rw [signQuery_e]
      exact e36_ne_empty expiry
    · rw [signQuery_e]
      exact parseInt36_e36 expiry h
    · rw [signQuery_s, signQuery_e]

/-- Tampering: any query that still carries the original MAC in `s` but
whose verified subject `(secret2, hash2, e)` digests differently is
rejected. -/
theorem checkQuerySign_tamper (hash secret hash2 secret2 : String) (expiry : Nat)
    (q : String → String) (now : Int)
    (hs : q "s" = signQuery hash secret expiry "s")
    (hdig : sha1 (strBytes secret2 ++ strBytes hash2 ++ strBytes (q "e")) ≠
      sha1 (strBytes secret ++ strBytes hash ++ strBytes (e36 expiry))) :
    checkQuerySign hash2 secret2 q now = false := by
  rw [Bool.eq_false_iff]
  intro htrue
  obtain ⟨_, _, v, _, hmac, _⟩ := (checkQuerySign_iff hash2 secret2 q now).mp htrue
  rw [hs, signQuery_s] at hmac
  have hlists := string_mk_injective _ _ hmac
  have := base64url_inj 20 _ _ (by rw [sha1_length]) (sha1_lt _) (sha1_lt _)
    (by rw [sha1_length, sha1_length]) hlists.symm
  exact hdig this

/-! ### The randomized-start iterators

`forEachFromRandomIndex` and `forEachFromRandomIndexWithPossibility`
from `src/unnamed/part_002`.  `randIntn(n)` in the source draws one
sample from the process-wide channel `rd` and reduces it modulo `n`; the
sample is modelled as an explicit argument `rnd`.  The Go callbacks are
closures mutating captured variables, modelled as state-passing
callbacks `σ → Nat → σ × Bool`; the `Bool` is the callback's `done`
result and the `σ` carries its side effects. -/

/-- `randIntn(n)` applied to the sample `rnd` drawn from the `rd` channel
(`rd` yields non-negative 63-bit ints, so Go `%` agrees with `Nat.mod`). -/
def randIntn (rnd n : Nat) : Nat := rnd % n

/-- One of the two `for` loops of the iterators:
`for i := first; i < stop; i++ { if cb(i) { return true } }`. -/
def loopFrom {σ : Type} (cb : σ → Nat → σ × Bool) (stop i : Nat) (s : σ) : σ × Bool :=
  if _h : i < stop then
    let r := cb s i
    if r.2 then (r.1, true) else loopFrom cb stop (i + 1) r.1
  else (s, false)
termination_by stop - i
decreasing_by omega

/-- `forEachFromRandomIndex(leng, cb)`; `leng ≤ 0` is `leng = 0` here
since every caller passes a `len(...)`. -/
def forEachFromRandomIndex {σ : Type} (cb : σ → Nat → σ × Bool) (rnd leng : Nat)
    (s : σ) : σ × Bool :=
  if leng = 0 then (s, false)
  else
    let start := randIntn rnd leng
    let r := loopFrom cb leng start s
    if r.2 then r else loopFrom cb start 0 r.1

/-- The `start` selection loop of the weighted iterator:
`for i, p := range poss { if n < p { start = i; break }; n -= p }`
(`n ≥ p` whenever the subtraction happens, so `Nat` subtraction is
exact). -/
def findStartAux (n : Nat) : List Nat → Nat → Option Nat
  | [], _ => none
  | p :: rest, i => if n < p then some i else findStartAux (n - p) rest (i + 1)

/-- The weighted starting index; `start` stays `0` when no prefix sum
exceeds the sample. -/
def findStart (n : Nat) (poss : List Nat) : Nat := (findStartAux n poss 0).getD 0

/-- `forEachFromRandomIndexWithPossibility(poss, total, cb)`. -/
def forEachFromRandomIndexWithPossibility {σ : Type} (cb : σ → Nat → σ × Bool)
    (rnd : Nat) (poss : List Nat) (total : Nat) (s : σ) : σ × Bool :=
  if poss.length = 0 then (s, false)
  else if total = 0 then forEachFromRandomIndex cb rnd poss.length s
  else
    let n := randIntn rnd total
    let start := findStart n poss
    let r := loopFrom cb poss.length start s
    if r.2 then r else loopFrom cb start 0 r.1

/-- The starting index of either iterator for a given random sample. -/
def walkStart (rnd : Nat) (poss : List Nat) (total : Nat) : Nat :=
  if total = 0 then randIntn rnd poss.length else findStart (randIntn rnd total) poss

/-- Run the callback along an explicit index list, stopping at the first
`true`. -/
def runList {σ : Type} (cb : σ → Nat → σ × Bool) : List Nat → σ → σ × Bool
  | [], s => (s, false)
  | i :: l, s =>
    let r := cb s i
    if r.2 then (r.1, true) else runList cb l r.1

/-- The wrap-around visit order `start, start+1, …, leng-1, 0, …, start-1`. -/
def visitOrder (start leng : Nat) : List Nat :=
  List.range' start (leng - start) ++ List.range start

/-- Prefix of a list up to and including the first element satisfying `p`. -/
def takeThrough (p : Nat → Bool) : List Nat → List Nat
  | [] => []
  | a :: l => if p a then [a] else a :: takeThrough p l

/-- Instrument a pure callback with an invocation trace. -/
def traceCb (cb : Nat → Bool) : List Nat → Nat → List Nat × Bool :=
  fun t i => (t ++ [i], cb i)

theorem loopFrom_eq_runList_aux {σ : Type} (cb : σ → Nat → σ × Bool) :
    ∀ (k stop i : Nat) (s : σ), stop - i ≤ k →
      loopFrom cb stop i s = runList cb (List.range' i (stop - i)) s := by
  intro k
  induction k with
  | zero =>
    intro stop i s hk
    have h0 : stop - i = 0 := Nat.le_zero.mp hk
    rw [h0]
    unfold loopFrom
    rw [dif_neg (by omega)]
    rfl
  | succ k ih =>
    intro stop i s hk
    by_cases h : i < stop
    · have hd : stop - i = (stop - (i + 1)) + 1 := by omega
      rw [hd, List.range'_succ]
      unfold loopFrom
      rw [dif_pos h]
      simp only [runList]
      rcases hr : (cb s i).2
      · simp only [Bool.false_eq_true, if_false]
        exact ih stop (i + 1) (cb s i).1 (by omega)
      · simp
    · have h0 : stop - i = 0 := by omega
      rw [h0]
      unfold loopFrom
      rw [dif_neg h]
      rfl

theorem loopFrom_eq_runList {σ : Type} (cb : σ → Nat → σ × Bool) (stop i : Nat) (s : σ) :
    loopFrom cb stop i s = runList cb (List.range' i (stop - i)) s :=
  loopFrom_eq_runList_aux cb (stop - i) stop i s (Nat.le_refl _)

theorem runList_append {σ : Type} (cb : σ → Nat → σ × Bool) (l1 l2 : List Nat) (s : σ) :
    runList cb (l1 ++ l2) s =
      (if (runList cb l1 s).2 then runList cb l1 s else runList cb l2 (runList cb l1 s).1) := by
  induction l1 generalizing s with
  | nil => simp [runList]
  | cons a l1 ih =>
    simp only [List.cons_append, runList]
    rcases hr : (cb s a).2
    · simp only [Bool.false_eq_true, if_false]
      exact ih (cb s a).1
    · simp

/-- Normal form of the uniform iterator: it runs the callback along the
wrap-around visit order. -/
theorem forEachFromRandomIndex_eq_runList {σ : Type} (cb : σ → Nat → σ × Bool)
    (rnd leng : Nat) (s : σ) (h : leng ≠ 0) :
    forEachFromRandomIndex cb rnd leng s =
      runList cb (visitOrder (randIntn rnd leng) leng) s := by
  unfold forEachFromRandomIndex visitOrder
  rw [if_neg h, runList_append]
  have h1 := loopFrom_eq_runList cb leng (randIntn rnd leng) s
  have h2 : List.range (randIntn rnd leng) = List.range' 0 (randIntn rnd leng) :=
    List.range_eq_range' _
  rw [← h1, h2]
  have h3 : ∀ t : σ, loopFrom cb (randIntn rnd leng) 0 t =
      runList cb (List.range' 0 (randIntn rnd leng)) t := by
    intro t
    have := loopFrom_eq_runList cb (randIntn rnd leng) 0 t
    simpa using this
  rw [← h3]

theorem findStartAux_bound (l : List Nat) :
    ∀ (n i j : Nat), findStartAux n l i = some j → i ≤ j ∧ j < i + l.length := by
  induction l with
  | nil => intro n i j h; simp [findStartAux] at h
  | cons p rest ih =>
    intro n i j h
    unfold findStartAux at h
    split at h
    · injection h with h
      subst h
      simp
    · have := ih (n - p) (i + 1) j h
      simp only [List.length_cons]
      omega

theorem walkStart_lt (rnd : Nat) (poss : List Nat) (total : Nat) (h : poss.length ≠ 0) :
    walkStart rnd poss total < poss.length := by
  unfold walkStart randIntn findStart
  split
  · exact Nat.mod_lt _ (by omega)
  · rcases hf : findStartAux (rnd % total) poss 0 with _ | j
    · simp
      omega
    · have := findStartAux_bound poss (rnd % total) 0 j hf
      simp
      omega

/-- Normal form of the weighted iterator (for non-empty weights): it runs
the callback along the wrap-around order starting at `walkStart`. -/
theorem forEachFromRandomIndexWithPossibility_eq_runList {σ : Type}
    (cb : σ → Nat → σ × Bool) (rnd : Nat) (poss : List Nat) (total : Nat) (s : σ)
    (h : poss.length ≠ 0) :
    forEachFromRandomIndexWithPossibility cb rnd poss total s =
      runList cb (visitOrder (walkStart rnd poss total) poss.length) s := by
  unfold forEachFromRandomIndexWithPossibility walkStart
  rw [if_neg h]
  by_cases ht : total = 0
  · rw [if_pos ht, if_pos ht]
    exact forEachFromRandomIndex_eq_runList cb rnd poss.length s h
  · rw [if_neg ht, if_neg ht]
    unfold visitOrder
    rw [runList_append]
    have h1 := loopFrom_eq_runList cb poss.length (findStart (randIntn rnd total) poss) s
    have h2 : List.range (findStart (randIntn rnd total) poss) =
        List.range' 0 (findStart (randIntn rnd total) poss) := List.range_eq_range' _
    rw [← h1, h2]
    have h3 : ∀ t : σ, loopFrom cb (findStart (randIntn rnd total) poss) 0 t =
        runList cb (List.range' 0 (findStart (randIntn rnd total) poss)) t := by
      intro t
      have := loopFrom_eq_runList cb (findStart (randIntn rnd total) poss) 0 t
      simpa using this
    rw [← h3]

/-- The wrap-around order is a permutation of `[0, leng)`. -/
theorem visitOrder_perm (start leng : Nat) (h : start ≤ leng) :
    (visitOrder start leng).Perm (List.range leng) := by
  unfold visitOrder
  have h1 : List.range' 0 start ++ List.range' (0 + 1 * start) (leng - start) =
      List.range' 0 (leng - start + start) := List.range'_append 0 start (leng - start) 1
  simp only [Nat.zero_add, Nat.one_mul] at h1
  have h2 : leng - start + start = leng := by omega
  rw [h2] at h1
  refine List.perm_append_comm.trans ?_
  rw [List.range_eq_range' start, h1, List.range_eq_range' leng]

theorem runList_traceCb (cb : Nat → Bool) :
    ∀ (l : List Nat) (t : List Nat),
      runList (traceCb cb) l t = (t ++ takeThrough cb l, l.any cb) := by
  intro l
  induction l with
  | nil => intro t; simp [runList, takeThrough]
  | cons a l ih =>
    intro t
    simp only [runList, traceCb, takeThrough, List.any_cons]
    rcases hr : cb a
    · simp only [Bool.false_eq_true, if_false, Bool.false_or]
      rw [ih (t ++ [a])]
      simp
    · simp

theorem takeThrough_of_none (p : Nat → Bool) :
    ∀ l : List Nat, l.any p = false → takeThrough p l = l := by
  intro l
  induction l with
  | nil => intro _; rfl
  | cons a l ih =>
    intro h
    simp only [List.any_cons, Bool.or_eq_false_iff] at h
    simp [takeThrough, h.1, ih h.2]

theorem takeThrough_any (p : Nat → Bool) :
    ∀ l : List Nat, l.any p = (takeThrough p l).any p := by
  intro l
  induction l with
  | nil => rfl
  | cons a l ih =>
    simp only [List.any_cons, takeThrough]
    rcases hr : p a
    · simp only [Bool.false_eq_true, if_false, Bool.false_or]
      simp [takeThrough, hr, ih]
    · simp [takeThrough, hr]

/-! ### The download dispatcher and router branch

Models of `handleDownload`, the `/download/` branch of
`Cluster.ServeHTTP`, `parseRangeFirstStart` and `emptyHashes` from
`src/handler.go`.  A storage backend's `ServeDownload` outcome for the
request at hand is a pair `(sz, err)`; the response body written by a
successful backend is outside the dispatcher, so `HandlerOut.status`
records only statuses the dispatcher itself writes (`none` when it
writes none).  Counter increments, access-log extras and the list of
consulted backends are explicit fields. -/

/-- Backend error classes distinguished by the dispatcher's epilogue:
`errors.Is(err, os.ErrNotExist)`, the `*utils.HTTPStatusError` type
assertion, and everything else. -/
inductive GoErr where
  | notExist : GoErr
  | httpStatus : Nat → GoErr
  | other : String → GoErr
deriving DecidableEq, Repr

/-- A storage backend, reduced to its name (`sto.String()`) and its
`ServeDownload` outcome for the request being dispatched. -/
structure Backend where
  name : String
  sz : Int
  err : Option GoErr
deriving DecidableEq, Repr

/-- The zero `Backend` (out-of-range index; never reached when weights and
storages have equal length). -/
def dfltBackend : Backend := { name := "", sz := 0, err := none }

/-- The mutable state captured by the dispatcher's walk closure: `sto`,
`err`, the four counters, plus the invocation trace of the closure. -/
structure DLState where
  sto : Option String := none
  err : Option GoErr := none
  hits : Nat := 0
  statHits : Nat := 0
  hbts : Int := 0
  statHbts : Int := 0
  visited : List Nat := []
deriving DecidableEq, Repr

/-- The walk closure of `handleDownload` (src/handler.go lines 463-483):
set `sto`, call `ServeDownload`; a non-nil error records `err` and
returns `false` (continue); otherwise bump the counter pair chosen by
`keepaliveRec` when `sz ≥ 0`, and return `true` (stop) — also when
`sz < 0`. -/
def downloadCb (storages : List Backend) (keepaliveRec : Bool) :
    DLState → Nat → DLState × Bool := fun s i =>
  match (storages.getD i dfltBackend).err with
  | some er =>
    ({ s with
        sto := some (storages.getD i dfltBackend).name
        visited := s.visited ++ [i]
        err := some er },
     false)
  | none =>
    if 0 ≤ (storages.getD i dfltBackend).sz then
      (if keepaliveRec then
        { s with
            sto := some (storages.getD i dfltBackend).name
            visited := s.visited ++ [i]
            hits := s.hits + 1
            hbts := s.hbts + (storages.getD i dfltBackend).sz }
       else
        { s with
            sto := some (storages.getD i dfltBackend).name
            visited := s.visited ++ [i]
            statHits := s.statHits + 1
            statHbts := s.statHbts + (storages.getD i dfltBackend).sz },
       true)
    else
      ({ s with
          sto := some (storages.getD i dfltBackend).name
          visited := s.visited ++ [i] },
       true)

/-- The dispatcher's error epilogue (src/handler.go lines 487-499): the
status written when the remembered `err` is non-nil. -/
def errResponse : Option GoErr → Option Nat
  | none => none
  | some GoErr.notExist => some 404
  | some (GoErr.httpStatus _) => some 502
  | some (GoErr.other _) => some 500

/-- The `err` variable after visiting the indices of `l` starting from
`init`: each hard error overwrites the previous one and success never
clears it. -/
def errAfter (storages : List Backend) (init : Option GoErr) (l : List Nat) : Option GoErr :=
  l.foldl (fun acc i =>
    match (storages.getD i dfltBackend).err with
    | some e => some e
    | none => acc) init

/-- The error remembered by the walk over a given visit sequence — the
LAST non-nil backend error. -/
def lastErr (storages : List Backend) (l : List Nat) : Option GoErr :=
  errAfter storages none l

/-- Whether the walk closure returns `true` at index `i` (it stops at
every nil-error backend, regardless of the sign of `sz`). -/
def cbStops (storages : List Backend) (i : Nat) : Bool :=
  ((storages.getD i dfltBackend).err).isNone

/-- The cluster state consulted by the `/download/` pipeline.
`cachedSize` models `CachedFileSize`; `downloadFileOk` models whether
the external `DownloadFile(ctx, hash)` collaborator returns nil. -/
structure Cluster where
  clusterSecret : String
  shouldEnable : Bool
  publicHosts : List String
  publicPort : Nat
  storages : List Backend
  storageWeights : List Nat
  storageTotalWeight : Nat
  cachedSize : String → Option Int
  downloadFileOk : String → Bool

/-- The request fields the `/download/` pipeline reads.  `query` models
`req.URL.Query().Get`; `noRecordForKeepalive` models the context value
`go-openbmclapi.handler.no.record.for.keepalive == true`. -/
structure HTTPReq where
  method : String
  path : String
  query : String → String
  rangeHeader : String
  noRecordForKeepalive : Bool

/-- Observable outcome of the `/download/` pipeline: status written by the
handler itself (`none` when the handler writes no status and the backend
owns the response), headers set via `rw.Header().Set` in source order,
the access-log extras, the four counters, whether `checkQuerySign` ran,
and the storage indices consulted. -/
structure HandlerOut where
  status : Option Nat := none
  headers : List (String × String) := []
  extraStorage : Option String := none
  extraSkipUa : Option String := none
  hits : Nat := 0
  statHits : Nat := 0
  hbts : Int := 0
  statHbts : Int := 0
  sigChecked : Bool := false
  visited : List Nat := []
deriving DecidableEq, Repr

/-- `emptyHashes` from `src/handler.go`: the hex digests of the empty
input under each supported hash method (MD5, SHA-1). -/
def emptyHashes : List String := [hexOf (md5 []), hexOf (sha1 [])]

/-- `parseRangeFirstStart` from `src/handler.go`: fast parse of the first
comma-delimited range of a `Range` header. -/
def parseRangeFirstStart (rg : String) : Int × Bool :=
  if (cutPfx rg "bytes=").2 = false then (0, false)
  else
    let rg1 := (goCutChar (cutPfx rg "bytes=").1 ',').1
    if (goCutChar rg1 '-').2.2 = false then (0, false)
    else
      let t := trimAsciiSpace (goCutChar rg1 '-').1
      if t = "" then (-1, true)
      else match parseInt10 t with
        | none => (0, false)
        | some v => (v, true)

/-- `Cluster.handleDownload` from `src/handler.go`:

1. always set `X-Bmclapi-Hash`;
2. empty-hash short-circuit: 200 with the immutable caching headers, a
   `Content-Disposition` iff `name` is non-empty, one hit (no bytes) on
   the counter pair chosen by the keepalive flag, no backends consulted;
3. `shouldEnable` gate: 503;
4. range annotation `skip-ua-count = "range"` when the first range start
   parses and is non-zero;
5. file-size lookup, falling back to `DownloadFile`; 404 on failure;
6. the storage walk via the weighted random iterator, then the extras
   `storage` annotation and the error epilogue. -/
def handleDownload (cr : Cluster) (req : HTTPReq) (hash : String) (rnd : Nat) : HandlerOut :=
  let keepaliveRec := !req.noRecordForKeepalive
  let hdr0 := [("X-Bmclapi-Hash", hash)]
  if emptyHashes.contains hash then
    let name := req.query "name"
    { status := some 200,
      headers := hdr0 ++
        [("ETag", "\"" ++ hash ++ "\""),
         ("Cache-Control", "public, max-age=31536000, immutable"),
         ("Content-Type", "application/octet-stream"),
         ("Content-Length", "0")] ++
        (if name ≠ "" then [("Content-Disposition", "attachment; filename=" ++ goQuote name)]
         else []),
      hits := if keepaliveRec then 1 else 0,
      statHits := if keepaliveRec then 0 else 1 }
  else if !cr.shouldEnable then
    { status := some 503, headers := hdr0 }
  else
    let p := parseRangeFirstStart req.rangeHeader
    let skipUa : Option String :=
      if req.rangeHeader ≠ "" ∧ p.2 = true ∧ p.1 ≠ 0 then some "range" else none
    let sizeOk := (cr.cachedSize hash).isSome || cr.downloadFileOk hash
    if !sizeOk then
      { status := some 404, headers := hdr0, extraSkipUa := skipUa }
    else
      let st := (forEachFromRandomIndexWithPossibility
        (downloadCb cr.storages keepaliveRec) rnd cr.storageWeights cr.storageTotalWeight {}).1
      { status := errResponse st.err, headers := hdr0,
        extraStorage := st.sto, extraSkipUa := skipUa,
        hits := st.hits, statHits := st.statHits, hbts := st.hbts, statHbts := st.statHbts,
        visited := st.visited }

/-- Modelled from the spec: `utils.IsHex` is called by the router but the
`utils` package file defining it is not under `src/`.  Per spec §3, a
valid hash is "a lowercase hex string of length 32 (MD5) or 40 (SHA-1);
any other length is invalid; hashes containing non-hex characters are
invalid". -/
def isHex (s : String) : Bool :=
  (s.length = 32 || s.length = 40) &&
    s.data.all (fun c => ('0' ≤ c && c ≤ '9') || ('a' ≤ c && c ≤ 'f'))

/-- The `/download/` branch of `Cluster.ServeHTTP` (src/handler.go lines
344-365): method gate (405), hash extraction `rawpath[len("/download/"):]`,
`utils.IsHex` gate (404), `checkQuerySign` gate (403), then
`handleDownload`. -/
def serveHTTPDownload (cr : Cluster) (req : HTTPReq) (now : Int) (rnd : Nat) : HandlerOut :=
  if req.method ≠ "GET" ∧ req.method ≠ "HEAD" then { status := some 405 }
  else
    let hash := stringDrop req.path 10
    if !isHex hash then { status := some 404 }
    else if !checkQuerySign hash cr.clusterSecret req.query now then
      { status := some 403, sigChecked := true }
    else { handleDownload cr req hash rnd with sigChecked := true }

/-! ### The record middleware and the host-redirect middleware -/

/-- The early-return gate of `getRecordMiddleWare` (src/handler.go line
303): `srw.status < 200 && 400 <= srw.status`. -/
def recordGuard (status : Int) : Bool := status < 200 && 400 ≤ status

/-- The emission decision of the record middleware's tail (src/handler.go
lines 303-318): early return on the gate, early return unless the path
has the `/download/` prefix, otherwise a record is built and sent to the
aggregator channel (non-blocking). -/
def shouldEmitRecord (status : Int) (path : String) : Bool :=
  if recordGuard status then false
  else if !path.startsWith "/download/" then false
  else true

/-- The `ua`/`isRange` fields of the record sent to the aggregator
(src/handler.go lines 309-314); `used` and `bytes` are float64 copies of
the duration and byte count and are carried through unchanged. -/
structure MetricRecord where
  ua : String
  isRange : Bool
deriving DecidableEq, Repr

/-- `rec.ua` is the User-Agent cut at the first space then at the first
slash; `rec.isRange` is `extraInfoMap["skip-ua-count"] != nil`. -/
def buildRecord (ua : String) (skipUa : Option String) : MetricRecord :=
  { ua := (goCutChar (goCutChar ua ' ').1 '/').1, isRange := skipUa.isSome }

/-- URL path and raw query of a request. -/
structure ReqURL where
  path : String
  rawQuery : String

/-- `url.URL.String()` for the URLs the redirect builds: scheme, host,
escaped path, optional raw query. -/
def urlString (scheme host : String) (u : ReqURL) : String :=
  scheme ++ "://" ++ host ++ u.path ++ (if u.rawQuery = "" then "" else "?" ++ u.rawQuery)

/-- Go `net.JoinHostPort`. -/
def joinHostPort (host port : String) : String :=
  if host.data.contains ':' then "[" ++ host ++ "]:" ++ port else host ++ ":" ++ port

/-- Index of the last occurrence of `c`. -/
def lastIdxOf (cs : List Char) (c : Char) : Option Nat :=
  match cs.reverse.findIdx? (· = c) with
  | none => none
  | some j => some (cs.length - 1 - j)

/-- Go `net.SplitHostPort`, host component: `none` models a non-nil
error (no colon, bracket mismatch, too many colons, stray brackets). -/
def splitHostPortHost (s : String) : Option String :=
  let cs := s.data
  match lastIdxOf cs ':' with
  | none => none
  | some i =>
    if cs.headD ' ' = '[' then
      match cs.findIdx? (· = ']') with
      | none => none
      | some e =>
        if e + 1 = cs.length then none
        else if e + 1 = i then some (String.mk ((cs.take e).drop 1))
        else none
    else
      let host := cs.take i
      if host.contains ':' ∨ host.contains '[' ∨ host.contains ']' then none
      else some (String.mk host)

/-- The host the middleware works with: `net.SplitHostPort(req.Host)`'s
host on success, the whole `req.Host` on error (src/handler.go lines
159-162). -/
def hostPortion (reqHost : String) : String :=
  match splitHostPortHost reqHost with
  | some h => h
  | none => reqHost

/-- Outcome of the host-redirect middleware: `handled = true` means it
responded itself (302) and did not invoke the next handler. -/
structure RedirectResult where
  handled : Bool
  status : Nat := 0
  location : String := ""
  contentLength : String := ""
deriving DecidableEq, Repr

/-- The host-redirect middleware (src/handler.go lines 158-183): when the
host portion is non-empty, the allowlist is non-empty and the lowercased
host is not in it, respond 302 with `Location` = https URL at
`publicHosts[0]:publicPort` and `Content-Length: 0`; otherwise forward. -/
def hostRedirectMiddleware (publicHosts : List String) (publicPort : Nat)
    (reqHost : String) (u : ReqURL) : RedirectResult :=
  let host := hostPortion reqHost
  if host ≠ "" ∧ publicHosts.length > 0 then
    let lhost := toLowerAscii host
    if publicHosts.contains lhost then { handled := false }
    else
      { handled := true, status := 302,
        location := urlString "https" (joinHostPort (publicHosts.headD "") (toString publicPort)) u,
        contentLength := "0" }
  else { handled := false }

theorem errResponse_eq_none_iff (e : Option GoErr) : errResponse e = none ↔ e = none := by
  rcases e with _ | e
  · simp [errResponse]
  · rcases e <;> simp [errResponse]

/-- Characterization of the dispatcher's walk along an explicit index
order: the closure is invoked on the `takeThrough`-prefix (it stops at
the first nil-error backend), the remembered error is the fold of the
visited backends' errors over the initial one, and the walk reports
`true` iff some backend in the order has a nil error. -/
theorem runList_downloadCb (storages : List Backend) (ka : Bool) :
    ∀ (order : List Nat) (s : DLState),
      (runList (downloadCb storages ka) order s).1.visited =
          s.visited ++ takeThrough (cbStops storages) order ∧
      (runList (downloadCb storages ka) order s).1.err =
          errAfter storages s.err (takeThrough (cbStops storages) order) ∧
      (runList (downloadCb storages ka) order s).2 = order.any (cbStops storages) := by
  intro order
  induction order with
  | nil =>
    intro s
    refine ⟨by simp [runList, takeThrough], ?_, by simp [runList]⟩
    simp [runList, takeThrough, errAfter]
  | cons i l ih =>
    intro s
    rcases hbe : (storages.getD i dfltBackend).err with _ | er
    · -- nil error: the closure returns true and the walk stops at `i`
      have hstop : cbStops storages i = true := by
        unfold cbStops
        rw [hbe]
        rfl
      have hcb2 : (downloadCb storages ka s i).2 = true := by
        unfold downloadCb
        rw [hbe]
        dsimp only
        split <;> rfl
      have hcb1v : (downloadCb storages ka s i).1.visited = s.visited ++ [i] := by
        unfold downloadCb
        rw [hbe]
        dsimp only
        split
        · split <;> rfl
        · rfl
      have hcb1e : (downloadCb storages ka s i).1.err = s.err := by
        unfold downloadCb
        rw [hbe]
        dsimp only
        split
        · split <;> rfl
        · rfl
      refine ⟨?_, ?_, ?_⟩
      · simp only [runList, hcb2, if_true, takeThrough, hstop]
        simpa using hcb1v
      · simp only [runList, hcb2, if_true, takeThrough, hstop]
        simp only [errAfter, List.foldl_cons, List.foldl_nil, hbe]
        simpa using hcb1e
      · simp [runList, hcb2, hstop]
    · -- hard error: record it and continue
      have hstop : cbStops storages i = false := by
        unfold cbStops
        rw [hbe]
        rfl
      have hcb2 : (downloadCb storages ka s i).2 = false := by
        unfold downloadCb
        rw [hbe]
      have hcb1v : (downloadCb storages ka s i).1.visited = s.visited ++ [i] := by
        unfold downloadCb
        rw [hbe]
      have hcb1e : (downloadCb storages ka s i).1.err = some er := by
        unfold downloadCb
        rw [hbe]
      obtain ⟨ihv, ihe, ihd⟩ := ih (downloadCb storages ka s i).1
      refine ⟨?_, ?_, ?_⟩
      · simp only [runList, hcb2, Bool.false_eq_true, if_false, takeThrough, hstop]
        rw [ihv, hcb1v]
        simp
      · simp only [runList, hcb2, Bool.false_eq_true, if_false, takeThrough, hstop]
        rw [ihe, hcb1e]
        simp only [errAfter, List.foldl_cons, hbe]
      · simp only [runList, hcb2, Bool.false_eq_true, if_false, List.any_cons, hstop,
          Bool.false_or]
        exact ihd

/-- When the backend at the head of the order has a nil error and a
negative size, the walk stops after exactly that one call, bumping no
counters. -/
theorem runList_downloadCb_softMiss (storages : List Backend) (ka : Bool)
    (i : Nat) (l : List Nat)
    (he : (storages.getD i dfltBackend).err = none)
    (hs : (storages.getD i dfltBackend).sz < 0) :
    runList (downloadCb storages ka) (i :: l) ({} : DLState) =
      ({ sto := some (storages.getD i dfltBackend).name, visited := [i] }, true) := by
  have hcb : downloadCb storages ka {} i =
      ({ sto := some (storages.getD i dfltBackend).name, visited := [i] }, true) := by
    unfold downloadCb
    rw [he, if_neg (by omega)]
    rfl
  simp [runList, hcb]

theorem visitOrder_head (start leng : Nat) (h : start < leng) :
    visitOrder start leng =
      start :: (List.range' (start + 1) (leng - start - 1) ++ List.range start) := by
  unfold visitOrder
  have hd : leng - start = (leng - start - 1) + 1 := by omega
  rw [hd, List.range'_succ]
  rfl

theorem takeThrough_sublist (p : Nat → Bool) :
    ∀ l : List Nat, (takeThrough p l).Sublist l := by
  intro l
  induction l with
  | nil => exact List.Sublist.refl []
  | cons a l ih =>
    simp only [takeThrough]
    split
    · exact (List.nil_sublist l).cons₂ a
    · exact ih.cons₂ a

theorem visitOrder_nodup (start leng : Nat) (h : start ≤ leng) :
    (visitOrder start leng).Nodup :=
  ((visitOrder_perm start leng h).nodup_iff).mpr (List.nodup_range leng)

theorem stringDrop_append (p h : String) : stringDrop (p ++ h) p.length = h := by
  unfold stringDrop
  have hlen : p.length = p.data.length := rfl
  rw [String.data_append, hlen, List.drop_left]

/-! ### The claims -/

/-- C7: the early-return guard of the record middleware,
`status < 200 && 400 <= status`, is unsatisfiable — it evaluates to
`false` for every status — so the middleware's emission decision depends
only on the `/download/` path prefix: every download request yields a
record handed to the aggregator channel, regardless of the response
status.  (The non-blocking channel send itself is concurrency and is
outside this model.) -/
theorem claim_C7 :
    (∀ status : Int, recordGuard status = false) ∧
    (∀ (status : Int) (path : String),
      shouldEmitRecord status path = path.startsWith "/download/") := by
  constructor
  · intro status
    simp only [recordGuard, Bool.and_eq_false_iff, decide_eq_false_iff_not, not_lt, not_le]
    omega
  · intro status path
    have hg : recordGuard status = false := by
      simp only [recordGuard, Bool.and_eq_false_iff, decide_eq_false_iff_not, not_lt, not_le]
      omega
    unfold shouldEmitRecord
    rw [hg]
    simp only [Bool.false_eq_true, if_false]
    rcases hw : path.startsWith "/download/" <;> simp [hw]

/-- C8: `forEachFromRandomIndexWithPossibility` with `total = 0` is
exactly the uniform `forEachFromRandomIndex` on `len(weights)` (the
source delegates before drawing any random sample), and on an empty
weight list both functions return `false` without invoking the callback
(the state is returned untouched for every callback and every state). -/
theorem claim_C8 :
    (∀ (σ : Type) (cb : σ → Nat → σ × Bool) (rnd : Nat) (poss : List Nat) (s : σ),
      forEachFromRandomIndexWithPossibility cb rnd poss 0 s =
        forEachFromRandomIndex cb rnd poss.length s) ∧
    (∀ (σ : Type) (cb : σ → Nat → σ × Bool) (rnd total : Nat) (s : σ),
      forEachFromRandomIndexWithPossibility cb rnd [] total s = (s, false)) ∧
    (∀ (σ : Type) (cb : σ → Nat → σ × Bool) (rnd : Nat) (s : σ),
      forEachFromRandomIndex cb rnd 0 s = (s, false)) := by
  refine ⟨?_, ?_, ?_⟩
  · intro σ cb rnd poss s
    by_cases h : poss.length = 0
    · simp [forEachFromRandomIndexWithPossibility, forEachFromRandomIndex, h]
    · simp [forEachFromRandomIndexWithPossibility, forEachFromRandomIndex, h]
  · intro σ cb rnd total s
    simp [forEachFromRandomIndexWithPossibility]
  · intro σ cb rnd s
    simp [forEachFromRandomIndex]

/-- C3: `checkQuerySign(hash, secret, query)` returns true iff `s` and
`e` are non-empty, `e` parses as a base-36 signed 64-bit integer, `s`
equals the unpadded base64url of `SHA1(secret ∥ hash ∥ e)` over the raw
`e` string, and `now < e`; hence a tuple produced by the signer verifies
iff `now < expiry`, and a tampered subject — a different secret, hash or
`e` string, whose SHA-1 digest differs — is rejected. -/
theorem claim_C3 (hash secret : String) (expiry : Nat) (hexp : expiry < 2 ^ 63) :
    (∀ (q : String → String) (now : Int),
      checkQuerySign hash secret q now = true ↔
        (q "s" ≠ "" ∧ q "e" ≠ "" ∧ ∃ v : Int, parseInt36 (q "e") = some v ∧
          q "s" = String.mk (base64url (sha1 (strBytes secret ++ strBytes hash ++ strBytes (q "e")))) ∧
          now < v)) ∧
    (∀ now : Int,
      checkQuerySign hash secret (signQuery hash secret expiry) now = true ↔
        now < (expiry : Int)) ∧
    (∀ (hash2 secret2 : String) (q : String → String) (now : Int),
      q "s" = signQuery hash secret expiry "s" →
      sha1 (strBytes secret2 ++ strBytes hash2 ++ strBytes (q "e")) ≠
        sha1 (strBytes secret ++ strBytes hash ++ strBytes (e36 expiry)) →
      checkQuerySign hash2 secret2 q now = false) :=
  ⟨fun q now => checkQuerySign_iff hash secret q now,
   fun now => checkQuerySign_signQuery hash secret expiry hexp now,
   fun hash2 secret2 q now hs hdig =>
     checkQuerySign_tamper hash secret hash2 secret2 expiry q now hs hdig⟩

/-- C3 witness at concrete inputs. -/
theorem claim_C3_witness :
    (1000 < 2 ^ 63) ∧
    ((∀ (q : String → String) (now : Int),
      checkQuerySign "5d41402abc4b2a76b9719d911017c592" "abc" q now = true ↔
        (q "s" ≠ "" ∧ q "e" ≠ "" ∧ ∃ v : Int, parseInt36 (q "e") = some v ∧
          q "s" = String.mk (base64url (sha1 (strBytes "abc" ++
            strBytes "5d41402abc4b2a76b9719d911017c592" ++ strBytes (q "e")))) ∧
          now < v)) ∧
    (∀ now : Int,
      checkQuerySign "5d41402abc4b2a76b9719d911017c592" "abc"
        (signQuery "5d41402abc4b2a76b9719d911017c592" "abc" 1000) now = true ↔
        now < (1000 : Int)) ∧
    (∀ (hash2 secret2 : String) (q : String → String) (now : Int),
      q "s" = signQuery "5d41402abc4b2a76b9719d911017c592" "abc" 1000 "s" →
      sha1 (strBytes secret2 ++ strBytes hash2 ++ strBytes (q "e")) ≠
        sha1 (strBytes "abc" ++ strBytes "5d41402abc4b2a76b9719d911017c592" ++
          strBytes (e36 1000)) →
      checkQuerySign hash2 secret2 q now = false)) :=
  ⟨by norm_num, claim_C3 "5d41402abc4b2a76b9719d911017c592" "abc" 1000 (by norm_num)⟩

/-- C6: a GET or HEAD request to `/download/{hash}` whose hash is not a
valid hash (hex of length 32 or 40; `utils.IsHex` is modelled from the
spec) is answered 404 before the signature check, and neither signature
verification nor any storage backend is consulted. -/
theorem claim_C6 (cr : Cluster) (req : HTTPReq) (now : Int) (rnd : Nat) (h : String)
    (hm : req.method = "GET" ∨ req.method = "HEAD")
    (hp : req.path = "/download/" ++ h)
    (hh : isHex h = false) :
    serveHTTPDownload cr req now rnd =
      { status := some 404, sigChecked := false, visited := [] } := by
  unfold serveHTTPDownload
  have hm2 : ¬(req.method ≠ "GET" ∧ req.method ≠ "HEAD") := by
    rcases hm with hm | hm <;> simp [hm]
  rw [if_neg hm2]
  have hdrop : stringDrop req.path 10 = h := by
    rw [hp]
    have : (10 : Nat) = ("/download/" : String).length := by decide
    rw [this]
    exact stringDrop_append "/download/" h
  rw [hdrop]
  dsimp only
  rw [hh]
  rfl

/-- C6 witness at concrete inputs. -/
theorem claim_C6_witness :
    (("GET" = "GET" ∨ "GET" = "HEAD") ∧
      "/download/xyz" = "/download/" ++ "xyz" ∧ isHex "xyz" = false) ∧
    serveHTTPDownload
      { clusterSecret := "sec", shouldEnable := true, publicHosts := [], publicPort := 443,
        storages := [], storageWeights := [], storageTotalWeight := 0,
        cachedSize := fun _ => none, downloadFileOk := fun _ => false }
      { method := "GET", path := "/download/xyz", query := fun _ => "",
        rangeHeader := "", noRecordForKeepalive := false } 0 0 =
      { status := some 404, sigChecked := false, visited := [] } :=
  ⟨⟨Or.inl rfl, rfl, by decide⟩,
   claim_C6 _ _ 0 0 "xyz" (Or.inl rfl) rfl (by decide)⟩

/-- `handleDownload` in the main (walk) case: hash not empty, cluster
enabled, size known or fetched. -/
theorem handleDownload_walk (cr : Cluster) (req : HTTPReq) (hash : String) (rnd : Nat)
    (hempty : emptyHashes.contains hash = false)
    (hen : cr.shouldEnable = true)
    (hsz : ((cr.cachedSize hash).isSome || cr.downloadFileOk hash) = true) :
    handleDownload cr req hash rnd =
      { status := errResponse ((forEachFromRandomIndexWithPossibility
          (downloadCb cr.storages (!req.noRecordForKeepalive)) rnd cr.storageWeights
          cr.storageTotalWeight {}).1.err),
        headers := [("X-Bmclapi-Hash", hash)],
        extraStorage := (forEachFromRandomIndexWithPossibility
          (downloadCb cr.storages (!req.noRecordForKeepalive)) rnd cr.storageWeights
          cr.storageTotalWeight {}).1.sto,
        extraSkipUa := if req.rangeHeader ≠ "" ∧ (parseRangeFirstStart req.rangeHeader).2 = true ∧
            (parseRangeFirstStart req.rangeHeader).1 ≠ 0 then some "range" else none,
        hits := (forEachFromRandomIndexWithPossibility
          (downloadCb cr.storages (!req.noRecordForKeepalive)) rnd cr.storageWeights
          cr.storageTotalWeight {}).1.hits,
        statHits := (forEachFromRandomIndexWithPossibility
          (downloadCb cr.storages (!req.noRecordForKeepalive)) rnd cr.storageWeights
          cr.storageTotalWeight {}).1.statHits,
        hbts := (forEachFromRandomIndexWithPossibility
          (downloadCb cr.storages (!req.noRecordForKeepalive)) rnd cr.storageWeights
          cr.storageTotalWeight {}).1.hbts,
        statHbts := (forEachFromRandomIndexWithPossibility
          (downloadCb cr.storages (!req.noRecordForKeepalive)) rnd cr.storageWeights
          cr.storageTotalWeight {}).1.statHbts,
        visited := (forEachFromRandomIndexWithPossibility
          (downloadCb cr.storages (!req.noRecordForKeepalive)) rnd cr.storageWeights
          cr.storageTotalWeight {}).1.visited } := by
  unfold handleDownload
  rw [hempty, hen]
  dsimp only
  rw [hsz]
  rfl

/-- `handleDownload` when the file size is unknown and `DownloadFile`
fails: 404, with the range annotation already made. -/
theorem handleDownload_noSize (cr : Cluster) (req : HTTPReq) (hash : String) (rnd : Nat)
    (hempty : emptyHashes.contains hash = false)
    (hen : cr.shouldEnable = true)
    (hsz : ((cr.cachedSize hash).isSome || cr.downloadFileOk hash) = false) :
    handleDownload cr req hash rnd =
      { status := some 404,
        headers := [("X-Bmclapi-Hash", hash)],
        extraSkipUa := if req.rangeHeader ≠ "" ∧ (parseRangeFirstStart req.rangeHeader).2 = true ∧
            (parseRangeFirstStart req.rangeHeader).1 ≠ 0 then some "range" else none } := by
  unfold handleDownload
  rw [hempty, hen]
  dsimp only
  rw [hsz]
  rfl

/-- C9 counterexample: a request with `Host: ""` — its host portion, port
ignored and lowercased, is `""`, which is absent from the non-empty
allowlist `["example.com"]` — is nevertheless forwarded, not answered
302: the middleware's `host != ""` guard exempts empty hosts, which the
claim's "absent from the allowlist" premise does not. -/
theorem claim_C9_counterexample :
    hostPortion "" = "" ∧
    (["example.com"] : List String).contains (toLowerAscii (hostPortion "")) = false ∧
    hostRedirectMiddleware ["example.com"] 443 "" { path := "/a", rawQuery := "" } =
      { handled := false } := by
  refine ⟨rfl, by decide, ?_⟩
  rfl

/-- C9 (amended): if the request's host portion is NON-EMPTY and its
lowercased form is absent from the non-empty allowlist, the middleware
responds 302 with `Location: https://{publicHosts[0]}:{publicPort}{path?query}`
and `Content-Length: 0` without invoking the next handler; otherwise —
allowlist empty, host empty, or host in the allowlist — the request is
forwarded. -/
theorem claim_C9_amended (publicHosts : List String) (publicPort : Nat)
    (reqHost : String) (u : ReqURL) :
    (hostPortion reqHost ≠ "" → publicHosts ≠ [] →
      publicHosts.contains (toLowerAscii (hostPortion reqHost)) = false →
      hostRedirectMiddleware publicHosts publicPort reqHost u =
        { handled := true, status := 302,
          location := urlString "https" (joinHostPort (publicHosts.headD "")
            (toString publicPort)) u,
          contentLength := "0" }) ∧
    (hostPortion reqHost = "" ∨ publicHosts = [] ∨
        publicHosts.contains (toLowerAscii (hostPortion reqHost)) = true →
      hostRedirectMiddleware publicHosts publicPort reqHost u = { handled := false }) := by
  constructor
  · intro h1 h2 h3
    unfold hostRedirectMiddleware
    rw [if_pos ⟨h1, List.length_pos.mpr h2⟩]
    dsimp only
    rw [h3]
    rfl
  · intro hcase
    unfold hostRedirectMiddleware
    rcases hcase with hc | hc | hc
    · rw [if_neg (by simp [hc])]
    · rw [if_neg (by simp [hc])]
    · by_cases hne : hostPortion reqHost ≠ "" ∧ publicHosts.length > 0
      · rw [if_pos hne]
        dsimp only
        rw [hc]
        rfl
      · rw [if_neg hne]

/-- C9 amended witness at concrete inputs. -/
theorem claim_C9_amended_witness :
    (hostPortion "other.com:80" ≠ "" ∧ (["example.com"] : List String) ≠ [] ∧
      (["example.com"] : List String).contains (toLowerAscii (hostPortion "other.com:80")) = false) ∧
    hostRedirectMiddleware ["example.com"] 443 "other.com:80" { path := "/a", rawQuery := "x=1" } =
      { handled := true, status := 302,
        location := urlString "https" (joinHostPort ((["example.com"] : List String).headD "")
          (toString (443 : Nat))) { path := "/a", rawQuery := "x=1" },
        contentLength := "0" } :=
  ⟨⟨by decide, by decide, by decide⟩,
   (claim_C9_amended ["example.com"] 443 "other.com:80" { path := "/a", rawQuery := "x=1" }).1
     (by decide) (by decide) (by decide)⟩

/-- C5: for a request whose hash is the hex digest of the empty input
under MD5 or SHA-1, the download handler short-circuits: 200 with
`Content-Length: 0`, `Content-Type: application/octet-stream`,
`ETag: "{hash}"` and the immutable `Cache-Control`, a
`Content-Disposition` attachment iff the `name` query parameter is
non-empty, exactly one hit counter (chosen by the keepalive flag) bumped
by one with both byte counters unchanged, and no storage backend
consulted — regardless of `shouldEnable`.  (The router enforces
GET/HEAD and a valid signature before this point.) -/
theorem claim_C5 (cr : Cluster) (req : HTTPReq) (hash : String) (rnd : Nat)
    (h : emptyHashes.contains hash = true) :
    (handleDownload cr req hash rnd).status = some 200 ∧
    (handleDownload cr req hash rnd).headers =
      [("X-Bmclapi-Hash", hash),
       ("ETag", "\"" ++ hash ++ "\""),
       ("Cache-Control", "public, max-age=31536000, immutable"),
       ("Content-Type", "application/octet-stream"),
       ("Content-Length", "0")] ++
      (if req.query "name" ≠ "" then
        [("Content-Disposition", "attachment; filename=" ++ goQuote (req.query "name"))]
       else []) ∧
    (handleDownload cr req hash rnd).hits = (if req.noRecordForKeepalive then 0 else 1) ∧
    (handleDownload cr req hash rnd).statHits = (if req.noRecordForKeepalive then 1 else 0) ∧
    (handleDownload cr req hash rnd).hits + (handleDownload cr req hash rnd).statHits = 1 ∧
    (handleDownload cr req hash rnd).hbts = 0 ∧
    (handleDownload cr req hash rnd).statHbts = 0 ∧
    (handleDownload cr req hash rnd).visited = [] ∧
    (handleDownload cr req hash rnd).extraStorage = none := by
  have hout : handleDownload cr req hash rnd =
      { status := some 200,
        headers :=
          [("X-Bmclapi-Hash", hash)] ++
            [("ETag", "\"" ++ hash ++ "\""),
             ("Cache-Control", "public, max-age=31536000, immutable"),
             ("Content-Type", "application/octet-stream"),
             ("Content-Length", "0")] ++
            (if req.query "name" ≠ "" then
              [("Content-Disposition", "attachment; filename=" ++ goQuote (req.query "name"))]
             else []),
        hits := if !req.noRecordForKeepalive then 1 else 0,
        statHits := if !req.noRecordForKeepalive then 0 else 1 } := by
    unfold handleDownload
    rw [h]
    rfl
  rw [hout]
  refine ⟨rfl, rfl, ?_, ?_, ?_, rfl, rfl, rfl, rfl⟩ <;>
    rcases req.noRecordForKeepalive <;> rfl

set_option maxRecDepth 100000 in
/-- C5 witness at concrete inputs (the MD5 digest of the empty input),
with the cluster NOT enabled. -/
theorem claim_C5_witness :
    emptyHashes.contains "d41d8cd98f00b204e9800998ecf8427e" = true ∧
    (let cr : Cluster :=
      { clusterSecret := "sec", shouldEnable := false, publicHosts := [], publicPort := 443,
        storages := [], storageWeights := [], storageTotalWeight := 0,
        cachedSize := fun _ => none, downloadFileOk := fun _ => false }
     let req : HTTPReq :=
      { method := "GET", path := "/download/d41d8cd98f00b204e9800998ecf8427e",
        query := fun k => if k = "name" then "f.bin" else "", rangeHeader := "",
        noRecordForKeepalive := false }
     (handleDownload cr req "d41d8cd98f00b204e9800998ecf8427e" 0).status = some 200 ∧
     (handleDownload cr req "d41d8cd98f00b204e9800998ecf8427e" 0).headers =
       [("X-Bmclapi-Hash", "d41d8cd98f00b204e9800998ecf8427e"),
        ("ETag", "\"" ++ "d41d8cd98f00b204e9800998ecf8427e" ++ "\""),
        ("Cache-Control", "public, max-age=31536000, immutable"),
        ("Content-Type", "application/octet-stream"),
        ("Content-Length", "0")] ++
       (if req.query "name" ≠ "" then
         [("Content-Disposition", "attachment; filename=" ++ goQuote (req.query "name"))]
        else []) ∧
     (handleDownload cr req "d41d8cd98f00b204e9800998ecf8427e" 0).hits =
       (if req.noRecordForKeepalive then 0 else 1) ∧
     (handleDownload cr req "d41d8cd98f00b204e9800998ecf8427e" 0).statHits =
       (if req.noRecordForKeepalive then 1 else 0) ∧
     (handleDownload cr req "d41d8cd98f00b204e9800998ecf8427e" 0).hits +
       (handleDownload cr req "d41d8cd98f00b204e9800998ecf8427e" 0).statHits = 1 ∧
     (handleDownload cr req "d41d8cd98f00b204e9800998ecf8427e" 0).hbts = 0 ∧
     (handleDownload cr req "d41d8cd98f00b204e9800998ecf8427e" 0).statHbts = 0 ∧
     (handleDownload cr req "d41d8cd98f00b204e9800998ecf8427e" 0).visited = [] ∧
     (handleDownload cr req "d41d8cd98f00b204e9800998ecf8427e" 0).extraStorage = none) :=
  ⟨by decide, claim_C5 _ _ "d41d8cd98f00b204e9800998ecf8427e" 0 (by decide)⟩

theorem parseRange_suffix (h rest : String)
    (hcut : cutPfx h "bytes=" = (rest, true))
    (hfound : (goCutChar (goCutChar rest ',').1 '-').2.2 = true)
    (htrim : trimAsciiSpace (goCutChar (goCutChar rest ',').1 '-').1 = "") :
    parseRangeFirstStart h = (-1, true) := by
  simp [parseRangeFirstStart, hcut, hfound, htrim]

theorem parseRange_badStart (h rest : String)
    (hcut : cutPfx h "bytes=" = (rest, true))
    (hfound : (goCutChar (goCutChar rest ',').1 '-').2.2 = true)
    (htrim : trimAsciiSpace (goCutChar (goCutChar rest ',').1 '-').1 ≠ "")
    (hpi : parseInt10 (trimAsciiSpace (goCutChar (goCutChar rest ',').1 '-').1) = none) :
    parseRangeFirstStart h = (0, false) := by
  simp [parseRangeFirstStart, hcut, hfound, htrim, hpi]

theorem parseRange_noPfx (h : String)
    (hcut : cutPfx h "bytes=" = (h, false)) :
    parseRangeFirstStart h = (0, false) := by
  simp [parseRangeFirstStart, hcut]

theorem parseRange_noDash (h rest : String)
    (hcut : cutPfx h "bytes=" = (rest, true))
    (hfound : (goCutChar (goCutChar rest ',').1 '-').2.2 = false) :
    parseRangeFirstStart h = (0, false) := by
  simp [parseRangeFirstStart, hcut, hfound]

/-- The `skip-ua-count` extra recorded by `handleDownload` equals the
range-annotation condition, on every path past the enable gate. -/
theorem handleDownload_extraSkipUa (cr : Cluster) (req : HTTPReq) (hash : String) (rnd : Nat)
    (hempty : emptyHashes.contains hash = false)
    (hen : cr.shouldEnable = true) :
    (handleDownload cr req hash rnd).extraSkipUa =
      (if req.rangeHeader ≠ "" ∧ (parseRangeFirstStart req.rangeHeader).2 = true ∧
          (parseRangeFirstStart req.rangeHeader).1 ≠ 0 then some "range" else none) := by
  by_cases hsz : ((cr.cachedSize hash).isSome || cr.downloadFileOk hash) = true
  · rw [handleDownload_walk cr req hash rnd hempty hen hsz]
  · simp only [Bool.not_eq_true] at hsz
    rw [handleDownload_noSize cr req hash rnd hempty hen hsz]

/-- C10: `parseRangeFirstStart` on a first range with an empty (after
trimming) start before the dash returns `(-1, true)`, so the handler
annotates the request with `skip-ua-count = "range"` and the aggregator
record gets `isRange = true`; a non-empty non-decimal start yields
`(0, false)`; a header without the `bytes=` prefix, or whose first range
has no dash, yields `ok = false`; and whenever `ok = false` no
annotation is made. -/
theorem claim_C10 :
    (∀ h rest : String, cutPfx h "bytes=" = (rest, true) →
      (goCutChar (goCutChar rest ',').1 '-').2.2 = true →
      trimAsciiSpace (goCutChar (goCutChar rest ',').1 '-').1 = "" →
      parseRangeFirstStart h = (-1, true)) ∧
    (∀ h rest : String, cutPfx h "bytes=" = (rest, true) →
      (goCutChar (goCutChar rest ',').1 '-').2.2 = true →
      trimAsciiSpace (goCutChar (goCutChar rest ',').1 '-').1 ≠ "" →
      parseInt10 (trimAsciiSpace (goCutChar (goCutChar rest ',').1 '-').1) = none →
      parseRangeFirstStart h = (0, false)) ∧
    (∀ h : String, cutPfx h "bytes=" = (h, false) → parseRangeFirstStart h = (0, false)) ∧
    (∀ h rest : String, cutPfx h "bytes=" = (rest, true) →
      (goCutChar (goCutChar rest ',').1 '-').2.2 = false →
      parseRangeFirstStart h = (0, false)) ∧
    (∀ (cr : Cluster) (req : HTTPReq) (hash : String) (rnd : Nat),
      emptyHashes.contains hash = false → cr.shouldEnable = true →
      (handleDownload cr req hash rnd).extraSkipUa =
        (if req.rangeHeader ≠ "" ∧ (parseRangeFirstStart req.rangeHeader).2 = true ∧
            (parseRangeFirstStart req.rangeHeader).1 ≠ 0 then some "range" else none)) ∧
    (∀ (cr : Cluster) (req : HTTPReq) (hash : String) (rnd : Nat) (rest : String),
      emptyHashes.contains hash = false → cr.shouldEnable = true →
      cutPfx req.rangeHeader "bytes=" = (rest, true) →
      (goCutChar (goCutChar rest ',').1 '-').2.2 = true →
      trimAsciiSpace (goCutChar (goCutChar rest ',').1 '-').1 = "" →
      (handleDownload cr req hash rnd).extraSkipUa = some "range" ∧
      (∀ ua : String,
        (buildRecord ua (handleDownload cr req hash rnd).extraSkipUa).isRange = true)) ∧
    (∀ (cr : Cluster) (req : HTTPReq) (hash : String) (rnd : Nat),
      emptyHashes.contains hash = false → cr.shouldEnable = true →
      (parseRangeFirstStart req.rangeHeader).2 = false →
      (handleDownload cr req hash rnd).extraSkipUa = none ∧
      (∀ ua : String,
        (buildRecord ua (handleDownload cr req hash rnd).extraSkipUa).isRange = false)) := by
  refine ⟨parseRange_suffix, parseRange_badStart, parseRange_noPfx, parseRange_noDash,
    handleDownload_extraSkipUa, ?_, ?_⟩
  · intro cr req hash rnd rest hempty hen hcut hfound htrim
    have hne : req.rangeHeader ≠ "" := by
      intro h0
      rw [h0] at hcut
      have : cutPfx "" "bytes=" = ("", false) := by decide
      rw [this] at hcut
      exact absurd (congrArg Prod.snd hcut) (by simp)
    have hp := parseRange_suffix req.rangeHeader rest hcut hfound htrim
    have hcond : req.rangeHeader ≠ "" ∧ (parseRangeFirstStart req.rangeHeader).2 = true ∧
        (parseRangeFirstStart req.rangeHeader).1 ≠ 0 := by
      refine ⟨hne, ?_, ?_⟩ <;> rw [hp] <;> simp
    have hx := handleDownload_extraSkipUa cr req hash rnd hempty hen
    rw [if_pos hcond] at hx
    exact ⟨hx, fun ua => by rw [hx]; rfl⟩
  · intro cr req hash rnd hempty hen hok
    have hx := handleDownload_extraSkipUa cr req hash rnd hempty hen
    have hcond : ¬(req.rangeHeader ≠ "" ∧ (parseRangeFirstStart req.rangeHeader).2 = true ∧
        (parseRangeFirstStart req.rangeHeader).1 ≠ 0) := by
      rintro ⟨_, h2, _⟩
      rw [hok] at h2
      exact absurd h2 (by simp)
    rw [if_neg hcond] at hx
    exact ⟨hx, fun ua => by rw [hx]; rfl⟩

set_option maxRecDepth 100000 in
/-- C10 witness at concrete inputs. -/
theorem claim_C10_witness :
    (cutPfx "bytes=-5" "bytes=" = ("-5", true) ∧
      (goCutChar (goCutChar "-5" ',').1 '-').2.2 = true ∧
      trimAsciiSpace (goCutChar (goCutChar "-5" ',').1 '-').1 = "") ∧
    parseRangeFirstStart "bytes=-5" = (-1, true) ∧
    (cutPfx "octets=1-2" "bytes=" = ("octets=1-2", false) ∧
      parseRangeFirstStart "octets=1-2" = (0, false)) ∧
    (emptyHashes.contains "00000000000000000000000000000000" = false ∧
      (handleDownload
        { clusterSecret := "sec", shouldEnable := true, publicHosts := [], publicPort := 443,
          storages := [], storageWeights := [], storageTotalWeight := 0,
          cachedSize := fun _ => some 5, downloadFileOk := fun _ => true }
        { method := "GET", path := "/download/00000000000000000000000000000000",
          query := fun _ => "", rangeHeader := "bytes=-5", noRecordForKeepalive := false }
        "00000000000000000000000000000000" 0).extraSkipUa = some "range") :=
  ⟨⟨by decide, by decide, by decide⟩,
   claim_C10.1 "bytes=-5" "-5" (by decide) (by decide) (by decide),
   ⟨by decide, claim_C10.2.2.1 "octets=1-2" (by decide)⟩,
   ⟨by decide,
    (claim_C10.2.2.2.2.2.1
      { clusterSecret := "sec", shouldEnable := true, publicHosts := [], publicPort := 443,
        storages := [], storageWeights := [], storageTotalWeight := 0,
        cachedSize := fun _ => some 5, downloadFileOk := fun _ => true }
      { method := "GET", path := "/download/00000000000000000000000000000000",
        query := fun _ => "", rangeHeader := "bytes=-5", noRecordForKeepalive := false }
      "00000000000000000000000000000000" 0 "-5"
      (by decide) rfl (by decide) (by decide) (by decide)).1⟩⟩

/-- Two backends for the C1 scenario S5: the first refuses with
`(-1, nil)`, the second would serve `(5, nil)`. -/
def c1Cluster : Cluster :=
  { clusterSecret := "sec", shouldEnable := true, publicHosts := [], publicPort := 443,
    storages := [{ name := "sto0", sz := -1, err := none },
                 { name := "sto1", sz := 5, err := none }],
    storageWeights := [1, 1], storageTotalWeight := 2,
    cachedSize := fun _ => some 5, downloadFileOk := fun _ => true }

/-- A plain download request for a known non-empty hash. -/
def c1Req : HTTPReq :=
  { method := "GET", path := "/download/00000000000000000000000000000000",
    query := fun _ => "", rangeHeader := "", noRecordForKeepalive := false }

set_option maxRecDepth 1000000 in
/-- C1 counterexample: with `rnd = 0` the walk starts at backend 0, which
returns `(-1, nil)`; the claim expects fallback to backend 1 (`extras
storage = "sto1"`, a served response); the code instead STOPS at backend
0: only index 0 is consulted, `extras storage = "sto0"`, and no hit or
byte counter moves. -/
theorem claim_C1_counterexample :
    (handleDownload c1Cluster c1Req "00000000000000000000000000000000" 0).extraStorage =
      some "sto0" ∧
    (handleDownload c1Cluster c1Req "00000000000000000000000000000000" 0).extraStorage ≠
      some "sto1" ∧
    (handleDownload c1Cluster c1Req "00000000000000000000000000000000" 0).visited = [0] ∧
    (handleDownload c1Cluster c1Req "00000000000000000000000000000000" 0).hits = 0 ∧
    (handleDownload c1Cluster c1Req "00000000000000000000000000000000" 0).hbts = 0 := by
  have h1 : handleDownload c1Cluster c1Req "00000000000000000000000000000000" 0 =
      { status := none, headers := [("X-Bmclapi-Hash", "00000000000000000000000000000000")],
        extraStorage := some "sto0", extraSkipUa := none,
        hits := 0, statHits := 0, hbts := 0, statHbts := 0, sigChecked := false,
        visited := [0] } := by
    rw [handleDownload_walk c1Cluster c1Req _ 0 (by decide) rfl rfl]
    rw [forEachFromRandomIndexWithPossibility_eq_runList _ _ _ _ _ (by decide)]
    decide
  rw [h1]
  exact ⟨rfl, by decide, rfl, rfl, rfl⟩

/-- C1 (amended): when the backend at the walk's starting index returns a
negative size with a nil error, the dispatcher treats the request as
handled and STOPS: only that backend is consulted, the extras record its
name, no counters move, and no error response is written.  Fallback to
further backends happens only on a non-nil error. -/
theorem claim_C1_amended (cr : Cluster) (req : HTTPReq) (hash : String) (rnd : Nat)
    (hw : cr.storageWeights.length ≠ 0)
    (hempty : emptyHashes.contains hash = false)
    (hen : cr.shouldEnable = true)
    (hsz : ((cr.cachedSize hash).isSome || cr.downloadFileOk hash) = true)
    (hberr : (cr.storages.getD (walkStart rnd cr.storageWeights cr.storageTotalWeight)
      dfltBackend).err = none)
    (hbsz : (cr.storages.getD (walkStart rnd cr.storageWeights cr.storageTotalWeight)
      dfltBackend).sz < 0) :
    (handleDownload cr req hash rnd).visited =
      [walkStart rnd cr.storageWeights cr.storageTotalWeight] ∧
    (handleDownload cr req hash rnd).extraStorage =
      some (cr.storages.getD (walkStart rnd cr.storageWeights cr.storageTotalWeight)
        dfltBackend).name ∧
    (handleDownload cr req hash rnd).status = none ∧
    (handleDownload cr req hash rnd).hits = 0 ∧
    (handleDownload cr req hash rnd).statHits = 0 ∧
    (handleDownload cr req hash rnd).hbts = 0 ∧
    (handleDownload cr req hash rnd).statHbts = 0 := by
  rw [handleDownload_walk cr req hash rnd hempty hen hsz]
  rw [forEachFromRandomIndexWithPossibility_eq_runList _ _ _ _ _ hw]
  have hlt := walkStart_lt rnd cr.storageWeights cr.storageTotalWeight hw
  rw [visitOrder_head _ _ hlt]
  rw [runList_downloadCb_softMiss cr.storages (!req.noRecordForKeepalive) _ _ hberr hbsz]
  exact ⟨rfl, rfl, rfl, rfl, rfl, rfl, rfl⟩

set_option maxRecDepth 1000000 in
/-- C1 amended witness at the concrete inputs of the counterexample. -/
theorem claim_C1_amended_witness :
    (c1Cluster.storageWeights.length ≠ 0 ∧
      emptyHashes.contains "00000000000000000000000000000000" = false ∧
      c1Cluster.shouldEnable = true ∧
      ((c1Cluster.cachedSize "00000000000000000000000000000000").isSome ||
        c1Cluster.downloadFileOk "00000000000000000000000000000000") = true ∧
      (c1Cluster.storages.getD (walkStart 0 c1Cluster.storageWeights
        c1Cluster.storageTotalWeight) dfltBackend).err = none ∧
      (c1Cluster.storages.getD (walkStart 0 c1Cluster.storageWeights
        c1Cluster.storageTotalWeight) dfltBackend).sz < 0) ∧
    ((handleDownload c1Cluster c1Req "00000000000000000000000000000000" 0).visited =
      [walkStart 0 c1Cluster.storageWeights c1Cluster.storageTotalWeight] ∧
    (handleDownload c1Cluster c1Req "00000000000000000000000000000000" 0).extraStorage =
      some (c1Cluster.storages.getD (walkStart 0 c1Cluster.storageWeights
        c1Cluster.storageTotalWeight) dfltBackend).name ∧
    (handleDownload c1Cluster c1Req "00000000000000000000000000000000" 0).status = none ∧
    (handleDownload c1Cluster c1Req "00000000000000000000000000000000" 0).hits = 0 ∧
    (handleDownload c1Cluster c1Req "00000000000000000000000000000000" 0).statHits = 0 ∧
    (handleDownload c1Cluster c1Req "00000000000000000000000000000000" 0).hbts = 0 ∧
    (handleDownload c1Cluster c1Req "00000000000000000000000000000000" 0).statHbts = 0) :=
  ⟨⟨by decide, by decide, rfl, rfl, by decide, by decide⟩,
   claim_C1_amended c1Cluster c1Req "00000000000000000000000000000000" 0
     (by decide) (by decide) rfl rfl (by decide) (by decide)⟩

/-- Three backends for the C2 scenario: a generic error, a not-exist
error, then a successful serve. -/
def c2Cluster : Cluster :=
  { clusterSecret := "sec", shouldEnable := true, publicHosts := [], publicPort := 443,
    storages := [{ name := "a", sz := 0, err := some (GoErr.other "boom") },
                 { name := "b", sz := 0, err := some GoErr.notExist },
                 { name := "c", sz := 5, err := none }],
    storageWeights := [1, 1, 1], storageTotalWeight := 3,
    cachedSize := fun _ => some 5, downloadFileOk := fun _ => true }

/-- A plain download request for the C2 scenario. -/
def c2Req : HTTPReq :=
  { method := "GET", path := "/download/00000000000000000000000000000000",
    query := fun _ => "", rangeHeader := "", noRecordForKeepalive := false }

set_option maxRecDepth 1000000 in
/-- C2 counterexample: backends error with `other "boom"` then
`notExist`, and the third serves 5 bytes (`hits = 1`).  The claim says
the FIRST error is remembered (it would give 500) and that no error
response is written when a backend ultimately succeeds; the code instead
keeps the LAST error and writes its 404 response on top of the
successful serve. -/
theorem claim_C2_counterexample :
    (handleDownload c2Cluster c2Req "00000000000000000000000000000000" 0).hits = 1 ∧
    (handleDownload c2Cluster c2Req "00000000000000000000000000000000" 0).status = some 404 ∧
    (handleDownload c2Cluster c2Req "00000000000000000000000000000000" 0).status ≠ some 500 ∧
    (handleDownload c2Cluster c2Req "00000000000000000000000000000000" 0).status ≠ none := by
  have h1 : handleDownload c2Cluster c2Req "00000000000000000000000000000000" 0 =
      { status := some 404, headers := [("X-Bmclapi-Hash", "00000000000000000000000000000000")],
        extraStorage := some "c", extraSkipUa := none,
        hits := 1, statHits := 0, hbts := 5, statHbts := 0, sigChecked := false,
        visited := [0, 1, 2] } := by
    rw [handleDownload_walk c2Cluster c2Req _ 0 (by decide) rfl rfl]
    rw [forEachFromRandomIndexWithPossibility_eq_runList _ _ _ _ _ (by decide)]
    decide
  rw [h1]
  exact ⟨rfl, rfl, by decide, by decide⟩

/-- C2 (amended): the walk remembers the LAST non-nil backend error —
each hard error overwrites the previous one, and success does not clear
it — and after the walk an error response (404 for not-exist, 502 for an
HTTPStatusError, 500 otherwise) is written exactly when the remembered
error is non-nil, even if a later backend succeeded. -/
theorem claim_C2_amended (cr : Cluster) (req : HTTPReq) (hash : String) (rnd : Nat)
    (hw : cr.storageWeights.length ≠ 0)
    (hempty : emptyHashes.contains hash = false)
    (hen : cr.shouldEnable = true)
    (hsz : ((cr.cachedSize hash).isSome || cr.downloadFileOk hash) = true) :
    walkStart rnd cr.storageWeights cr.storageTotalWeight < cr.storageWeights.length ∧
    (handleDownload cr req hash rnd).visited =
      takeThrough (cbStops cr.storages)
        (visitOrder (walkStart rnd cr.storageWeights cr.storageTotalWeight)
          cr.storageWeights.length) ∧
    (handleDownload cr req hash rnd).status =
      errResponse (lastErr cr.storages (handleDownload cr req hash rnd).visited) ∧
    ((handleDownload cr req hash rnd).status = none ↔
      lastErr cr.storages (handleDownload cr req hash rnd).visited = none) ∧
    errResponse (some GoErr.notExist) = some 404 ∧
    (∀ c : Nat, errResponse (some (GoErr.httpStatus c)) = some 502) ∧
    (∀ m : String, errResponse (some (GoErr.other m)) = some 500) := by
  have hlt := walkStart_lt rnd cr.storageWeights cr.storageTotalWeight hw
  rw [handleDownload_walk cr req hash rnd hempty hen hsz]
  rw [forEachFromRandomIndexWithPossibility_eq_runList _ _ _ _ _ hw]
  obtain ⟨hv, he, _⟩ := runList_downloadCb cr.storages (!req.noRecordForKeepalive)
    (visitOrder (walkStart rnd cr.storageWeights cr.storageTotalWeight)
      cr.storageWeights.length) {}
  have hv' : (runList (downloadCb cr.storages (!req.noRecordForKeepalive))
      (visitOrder (walkStart rnd cr.storageWeights cr.storageTotalWeight)
        cr.storageWeights.length) {}).1.visited =
      takeThrough (cbStops cr.storages)
        (visitOrder (walkStart rnd cr.storageWeights cr.storageTotalWeight)
          cr.storageWeights.length) := by
    rw [hv]
    rfl
  refine ⟨hlt, hv', ?_, ?_, rfl, fun c => rfl, fun m => rfl⟩
  · rw [he, hv']
    rfl
  · rw [he, hv']
    exact errResponse_eq_none_iff _

set_option maxRecDepth 1000000 in
/-- C2 amended witness at the concrete inputs of the counterexample. -/
theorem claim_C2_amended_witness :
    (c2Cluster.storageWeights.length ≠ 0 ∧
      emptyHashes.contains "00000000000000000000000000000000" = false ∧
      c2Cluster.shouldEnable = true ∧
      ((c2Cluster.cachedSize "00000000000000000000000000000000").isSome ||
        c2Cluster.downloadFileOk "00000000000000000000000000000000") = true) ∧
    (walkStart 0 c2Cluster.storageWeights c2Cluster.storageTotalWeight <
      c2Cluster.storageWeights.length ∧
    (handleDownload c2Cluster c2Req "00000000000000000000000000000000" 0).visited =
      takeThrough (cbStops c2Cluster.storages)
        (visitOrder (walkStart 0 c2Cluster.storageWeights c2Cluster.storageTotalWeight)
          c2Cluster.storageWeights.length) ∧
    (handleDownload c2Cluster c2Req "00000000000000000000000000000000" 0).status =
      errResponse (lastErr c2Cluster.storages
        (handleDownload c2Cluster c2Req "00000000000000000000000000000000" 0).visited) ∧
    ((handleDownload c2Cluster c2Req "00000000000000000000000000000000" 0).status = none ↔
      lastErr c2Cluster.storages
        (handleDownload c2Cluster c2Req "00000000000000000000000000000000" 0).visited = none) ∧
    errResponse (some GoErr.notExist) = some 404 ∧
    (∀ c : Nat, errResponse (some (GoErr.httpStatus c)) = some 502) ∧
    (∀ m : String, errResponse (some (GoErr.other m)) = some 500)) :=
  ⟨⟨by decide, by decide, rfl, rfl⟩,
   claim_C2_amended c2Cluster c2Req "00000000000000000000000000000000" 0
     (by decide) (by decide) rfl rfl⟩

/-- C4: for a positive length (and a non-empty weight list), one call of
`forEachFromRandomIndex` (respectively
`forEachFromRandomIndexWithPossibility`) invokes the callback along the
wrap-around order `start, start+1, …, leng-1, 0, …, start-1` for some
`start < leng`, truncated at (and including) the first index where the
callback returns true — so it stops immediately on true, visits each
index at most once, visits every index exactly once when no callback
returns true, and returns true iff some invocation returned true.  The
callback is instrumented with `traceCb`, whose state records the
invocation sequence. -/
theorem claim_C4 (cb : Nat → Bool) (rnd : Nat) (leng : Nat) (poss : List Nat) (total : Nat)
    (hl : leng ≠ 0) (hp : poss ≠ []) :
    (∃ start, start < leng ∧
      (forEachFromRandomIndex (traceCb cb) rnd leng []).1 =
        takeThrough cb (visitOrder start leng) ∧
      (visitOrder start leng).Perm (List.range leng) ∧
      (forEachFromRandomIndex (traceCb cb) rnd leng []).1.Nodup ∧
      (forEachFromRandomIndex (traceCb cb) rnd leng []).2 = (visitOrder start leng).any cb ∧
      (forEachFromRandomIndex (traceCb cb) rnd leng []).2 =
        (forEachFromRandomIndex (traceCb cb) rnd leng []).1.any cb ∧
      ((forEachFromRandomIndex (traceCb cb) rnd leng []).2 = false →
        (forEachFromRandomIndex (traceCb cb) rnd leng []).1 = visitOrder start leng)) ∧
    (∃ start, start < poss.length ∧
      (forEachFromRandomIndexWithPossibility (traceCb cb) rnd poss total []).1 =
        takeThrough cb (visitOrder start poss.length) ∧
      (visitOrder start poss.length).Perm (List.range poss.length) ∧
      (forEachFromRandomIndexWithPossibility (traceCb cb) rnd poss total []).1.Nodup ∧
      (forEachFromRandomIndexWithPossibility (traceCb cb) rnd poss total []).2 =
        (visitOrder start poss.length).any cb ∧
      (forEachFromRandomIndexWithPossibility (traceCb cb) rnd poss total []).2 =
        (forEachFromRandomIndexWithPossibility (traceCb cb) rnd poss total []).1.any cb ∧
      ((forEachFromRandomIndexWithPossibility (traceCb cb) rnd poss total []).2 = false →
        (forEachFromRandomIndexWithPossibility (traceCb cb) rnd poss total []).1 =
          visitOrder start poss.length)) := by
  constructor
  · refine ⟨randIntn rnd leng, Nat.mod_lt _ (by omega), ?_⟩
    rw [forEachFromRandomIndex_eq_runList (traceCb cb) rnd leng [] hl]
    rw [runList_traceCb cb (visitOrder (randIntn rnd leng) leng) []]
    have hle : randIntn rnd leng ≤ leng := Nat.le_of_lt (Nat.mod_lt _ (by omega))
    refine ⟨by simp, visitOrder_perm _ _ hle, ?_, rfl, ?_, ?_⟩
    · simp only [List.nil_append]
      exact (takeThrough_sublist cb _).nodup (visitOrder_nodup _ _ hle)
    · simp only [List.nil_append]
      exact takeThrough_any cb _
    · intro hfalse
      simp only [List.nil_append]
      exact takeThrough_of_none cb _ hfalse
  · have hpl : poss.length ≠ 0 := fun h => hp (List.length_eq_zero.mp h)
    refine ⟨walkStart rnd poss total, walkStart_lt rnd poss total hpl, ?_⟩
    rw [forEachFromRandomIndexWithPossibility_eq_runList (traceCb cb) rnd poss total [] hpl]
    rw [runList_traceCb cb (visitOrder (walkStart rnd poss total) poss.length) []]
    have hle : walkStart rnd poss total ≤ poss.length :=
      Nat.le_of_lt (walkStart_lt rnd poss total hpl)
    refine ⟨by simp, visitOrder_perm _ _ hle, ?_, rfl, ?_, ?_⟩
    · simp only [List.nil_append]
      exact (takeThrough_sublist cb _).nodup (visitOrder_nodup _ _ hle)
    · simp only [List.nil_append]
      exact takeThrough_any cb _
    · intro hfalse
      simp only [List.nil_append]
      exact takeThrough_of_none cb _ hfalse

/-- C4 witness at concrete inputs. -/
theorem claim_C4_witness :
    ((3 : Nat) ≠ 0 ∧ ([0, 2, 3] : List Nat) ≠ []) ∧
    ((∃ start, start < 3 ∧
      (forEachFromRandomIndex (traceCb (fun i => i == 1)) 5 3 []).1 =
        takeThrough (fun i => i == 1) (visitOrder start 3) ∧
      (visitOrder start 3).Perm (List.range 3) ∧
      (forEachFromRandomIndex (traceCb (fun i => i == 1)) 5 3 []).1.Nodup ∧
      (forEachFromRandomIndex (traceCb (fun i => i == 1)) 5 3 []).2 =
        (visitOrder start 3).any (fun i => i == 1) ∧
      (forEachFromRandomIndex (traceCb (fun i => i == 1)) 5 3 []).2 =
        (forEachFromRandomIndex (traceCb (fun i => i == 1)) 5 3 []).1.any (fun i => i == 1) ∧
      ((forEachFromRandomIndex (traceCb (fun i => i == 1)) 5 3 []).2 = false →
        (forEachFromRandomIndex (traceCb (fun i => i == 1)) 5 3 []).1 = visitOrder start 3)) ∧
    (∃ start, start < ([0, 2, 3] : List Nat).length ∧
      (forEachFromRandomIndexWithPossibility (traceCb (fun i => i == 1)) 5 [0, 2, 3] 5 []).1 =
        takeThrough (fun i => i == 1) (visitOrder start ([0, 2, 3] : List Nat).length) ∧
      (visitOrder start ([0, 2, 3] : List Nat).length).Perm
        (List.range ([0, 2, 3] : List Nat).length) ∧
      (forEachFromRandomIndexWithPossibility (traceCb (fun i => i == 1)) 5 [0, 2, 3] 5 []).1.Nodup ∧
      (forEachFromRandomIndexWithPossibility (traceCb (fun i => i == 1)) 5 [0, 2, 3] 5 []).2 =
        (visitOrder start ([0, 2, 3] : List Nat).length).any (fun i => i == 1) ∧
      (forEachFromRandomIndexWithPossibility (traceCb (fun i => i == 1)) 5 [0, 2, 3] 5 []).2 =
        (forEachFromRandomIndexWithPossibility (traceCb (fun i => i == 1)) 5 [0, 2, 3] 5
          []).1.any (fun i => i == 1) ∧
      ((forEachFromRandomIndexWithPossibility (traceCb (fun i => i == 1)) 5 [0, 2, 3] 5
          []).2 = false →
        (forEachFromRandomIndexWithPossibility (traceCb (fun i => i == 1)) 5 [0, 2, 3] 5 []).1 =
          visitOrder start ([0, 2, 3] : List Nat).length))) :=
  ⟨⟨by decide, by decide⟩,
   claim_C4 (fun i => i == 1) 5 3 [0, 2, 3] 5 (by decide) (by decide)⟩
